import Mathlib

/-!
# tasktracker: a shallow embedding of the task controller and the Task model

Sources embedded here:

* `src/models/Task.js` (schema, validators, the `pre('save')` hook),
* `src/middleware/validation.js` (`validateTask`),
* `src/controllers/taskController.js` (the request handlers).

The document store is a list of task documents in insertion order.  Everything
the handlers obtain from outside the repository (clock, user directory, the
validator library, date parsing) is a field of `Env`.
-/

namespace TaskTracker

/-- A MongoDB ObjectId (a well-formed one; strings that do not cast are handled
where the source casts them). -/
abbrev ObjectId := Nat

/-- Milliseconds since the epoch, the value of a JavaScript `Date`. -/
abbrev Timestamp := Int

/-- A stored field that MongoDB distinguishes three ways: absent from the
document, present with the value `null`, or present with a value.  Mongoose
leaves out a path whose value is `undefined`, so a task created without a
`dueDate` has the field `missing`. -/
inductive Field (α : Type) where
  | missing : Field α
  | null : Field α
  | value (a : α) : Field α
  deriving DecidableEq, Repr

/-- JavaScript truthiness of a date-valued field (`Date` objects are truthy). -/
def Field.isSet {α : Type} : Field α → Bool
  | .value _ => true
  | _ => false

/-- A task document, `taskSchema` of `src/models/Task.js`.  For the paths kept
as `Option`, `none` stands for both `undefined` and `null`: the handlers only
test them for truthiness or match them against a non-null value.  The
`attachments` array is read by no handler and is left out. -/
structure Task where
  id : ObjectId
  title : String
  description : Option String
  status : String
  priority : String
  dueDate : Field Timestamp
  assignee : Option ObjectId
  assigneeName : Option String
  createdBy : ObjectId
  tags : List String
  completedAt : Option Timestamp
  estimatedHours : Option ℚ
  actualHours : Option ℚ
  createdAt : Timestamp
  updatedAt : Timestamp
  deriving DecidableEq, Repr

/-- The collection of tasks, in insertion order. -/
abbrev Store := List Task

/-- A user document as far as the task handlers see it (`models/User.js` is
consumed through `User.findOne` and `populate` only). -/
structure User where
  id : ObjectId
  email : String
  username : String
  firstName : String
  lastName : String
  fullName : String
  deriving DecidableEq, Repr

/-- The projection `'firstName lastName username'` that `populate` selects
(the `_id` is always included). -/
structure UserView where
  id : ObjectId
  firstName : String
  lastName : String
  username : String
  deriving DecidableEq, Repr

/-- A request body of `POST /api/tasks` and `PUT /api/tasks/:id`; `none` is an
absent key.  Beside the keys `validateTask` inspects, the body may carry any
other schema path, which `Object.assign` and the object spread copy as well:
`assignee`, `assigneeName`, `createdBy` and `completedAt` are kept here. -/
structure TaskBody where
  title : Option String
  description : Option String
  status : Option String
  priority : Option String
  dueDate : Option String
  assigneeEmail : Option String
  estimatedHours : Option ℚ
  actualHours : Option ℚ
  tags : Option (List String)
  assignee : Option (Option ObjectId)
  assigneeName : Option String
  createdBy : Option ObjectId
  completedAt : Option (Option Timestamp)
  deriving DecidableEq, Repr

/-- The body with no key at all. -/
def TaskBody.empty : TaskBody :=
  { title := none, description := none, status := none, priority := none,
    dueDate := none, assigneeEmail := none, estimatedHours := none,
    actualHours := none, tags := none, assignee := none, assigneeName := none,
    createdBy := none, completedAt := none }

/-- What a request sees of the world outside the repository. -/
structure Env where
  /-- The value of `new Date()` during the request. -/
  now : Timestamp
  /-- The identifier the store assigns to the next inserted document. -/
  newId : ObjectId
  /-- The users collection. -/
  users : List User
  /-- The library test `validator.isISO8601`. -/
  isISO8601 : String → Bool
  /-- The library test `validator.isEmail`. -/
  isEmail : String → Bool
  /-- The library sanitizer `validator.normalizeEmail`. -/
  normalizeEmail : String → String
  /-- The constructor `new Date(s)`; `none` is an Invalid Date. -/
  parseDate : String → Option Timestamp
  /-- The cast of a string to an ObjectId; `none` when the string is none. -/
  castObjectId : String → Option ObjectId
  /-- The method `Date.prototype.setHours(h, m, s, ms)`, in the time zone of the
  server. -/
  setHours : Timestamp → Nat → Nat → Nat → Nat → Timestamp
  /-- The MongoDB operator `$regex` with `$options: 'i'`: `regex p` is `none` when the
  pattern does not compile, else the test "the pattern matches somewhere in
  the subject". -/
  regex : String → Option (String → Bool)

/-- The error handed to `next(error)`; the boundary handler is outside the
controller.  `cast path` is the error of a value that does not cast at
`path`: the `CastError` itself when a query raises it, the `ValidationError`
wrapping it when a document does. -/
inductive ServerError where
  | cast (path : String)
  | validation (messages : List String)
  | store (reason : String)
  deriving DecidableEq, Repr

/-- A task with the references `populate` resolved next to it; a reference
whose user does not exist resolves to `none` (JSON `null`). -/
structure Populated where
  doc : Task
  assigneeRef : Option UserView
  createdByRef : Option UserView
  deriving DecidableEq, Repr

/-- The pagination block of the listing response.  `total` is `none` when
`Math.ceil(total / limit)` is not finite (JSON `null`). -/
structure Pagination where
  current : Int
  total : Option Int
  count : Nat
  totalCount : Nat
  deriving DecidableEq, Repr

/-- The payload of `GET /api/tasks/stats`. -/
structure Stats where
  total : Nat
  completed : Nat
  pending : Nat
  inProgress : Nat
  overdue : Nat
  highPriority : Nat
  completionRate : Nat
  deriving DecidableEq, Repr

/-- What a handler sends: the HTTP status with the JSON envelope, or the error
passed to `next`. -/
inductive Response where
  /-- Envelope `{success: true, data: task, message?}` -/
  | task (code : Nat) (data : Populated) (message : Option String)
  /-- Envelope `{success: true, data: {tasks, pagination}}`, status 200 -/
  | list (tasks : List Populated) (pagination : Pagination)
  /-- Envelope `{success: true, data: stats}`, status 200 -/
  | stats (data : Stats)
  /-- Envelope `{success: true, data: {matchedCount, modifiedCount}, message}`,
  status 200 -/
  | bulk (matchedCount modifiedCount : Nat)
  /-- Envelope `{success, message}` -/
  | message (code : Nat) (success : Bool) (message : String)
  /-- Envelope `{success: false, message: 'Validation failed', errors}`, status
  400 -/
  | validationFailed (errors : List String)
  /-- The call `next(error)` -/
  | failed (error : ServerError)
  deriving DecidableEq, Repr

/-! ## JavaScript strings -/

/-- The characters JavaScript counts as white space or line terminators: the
set that `String.prototype.trim`, the class `\s` and `parseInt` skip. -/
def isJsSpace (c : Char) : Bool :=
  c.toNat ∈ [0x09, 0x0A, 0x0B, 0x0C, 0x0D, 0x20, 0xA0, 0x1680, 0x2028, 0x2029, 0x202F,
    0x205F, 0x3000, 0xFEFF] || (0x2000 ≤ c.toNat && c.toNat ≤ 0x200A)

/-- The method `String.prototype.trim` (also `validator.trim` without a
character set). -/
def jsTrim (s : String) : String :=
  ⟨((s.data.dropWhile isJsSpace).reverse.dropWhile isJsSpace).reverse⟩

/-! ## JavaScript numbers -/

/-- The value of `Math.ceil(a / b)` for integers `a` and `b ≠ 0` (the quotient
of two integers below 2^53 is rounded by the double division to the same side
of every integer, so the ceiling is the exact one). -/
def ceilDiv (a b : Int) : Int := -(Int.fdiv (-a) b)

/-- A non-negative fraction `num / den`. -/
structure Frac where
  num : Nat
  den : Nat
  deriving DecidableEq, Repr

/-- The number of halvings that bring `n` below 2, by structural recursion on
the fuel. -/
def halvings : Nat → Nat → Nat
  | 0, _ => 0
  | fuel + 1, n => if n < 2 then 0 else halvings fuel (n / 2) + 1

/-- The floor of the binary logarithm of `n` (and `0` for `n = 0`). -/
def ilog2 (n : Nat) : Nat := halvings n n

/-- The exponent `e` with `2^e ≤ n / d < 2^(e+1)`, for positive `n` and `d`. -/
def binade (n d : Nat) : Int :=
  let e : Int := (ilog2 n : Int) - (ilog2 d : Int)
  if (if 0 ≤ e then decide (n < d * 2 ^ e.toNat) else decide (n * 2 ^ (-e).toNat < d))
  then e - 1 else e

/-- The integer nearest to `a / b`, a tie going to the even one. -/
def nearestEven (a b : Nat) : Nat :=
  if 2 * (a % b) < b then a / b
  else if b < 2 * (a % b) then a / b + 1
  else if (a / b) % 2 = 0 then a / b else a / b + 1

/-- The IEEE 754 binary64 number nearest to a fraction (53 significant bits,
ties to even), as a fraction with a power of two below; overflow and
subnormal numbers do not arise for the values the handlers compute. -/
def toDouble (x : Frac) : Frac :=
  if x.num = 0 then { num := 0, den := 1 }
  else
    let e := binade x.num x.den - 52
    let m := if 0 ≤ e then nearestEven x.num (x.den * 2 ^ e.toNat)
      else nearestEven (x.num * 2 ^ (-e).toNat) x.den
    if 0 ≤ e then { num := m * 2 ^ e.toNat, den := 1 } else { num := m, den := 2 ^ (-e).toNat }

/-- JavaScript `Math.round` on a non-negative number: the nearest integer, a
tie going up. -/
def mathRound (x : Frac) : Nat := (2 * x.num + x.den) / (2 * x.den)

/-! ## The Task model -/

/-- The schema's `enum` of `status`. -/
def statusEnum : List String := ["pending", "in-progress", "completed"]

/-- The schema's `enum` of `priority`. -/
def priorityEnum : List String := ["low", "medium", "high"]

/-- The hook `taskSchema.pre('save')`, Task.js 89-98.  `statusModified` is
`this.isModified('status')`; `!this.completedAt` holds exactly when the path
is unset, a `Date` being truthy. -/
def preSave (now : Timestamp) (statusModified : Bool) (doc : Task) : Task :=
  if statusModified then
    if doc.status = "completed" ∧ doc.completedAt = none then
      { doc with completedAt := some now }
    else if doc.status ≠ "completed" then
      { doc with completedAt := none }
    else doc
  else doc

/-- The virtual `isOverdue` yields the value of
`this.dueDate && this.status !== 'completed' && this.dueDate < new Date()`,
which is the left operand itself when that one is falsy. -/
inductive OverdueValue where
  | undefined
  | null
  | bool (b : Bool)
  deriving DecidableEq, Repr

/-- The virtual `isOverdue`, Task.js 75-77. -/
def isOverdue (now : Timestamp) (t : Task) : OverdueValue :=
  match t.dueDate with
  | .missing => .undefined
  | .null => .null
  | .value d => if t.status ≠ "completed" then .bool (decide (d < now)) else .bool false

/-- The virtual `daysUntilDue`, Task.js 80-86: `none` is `null`, else
`Math.ceil((due - today) / 86400000)`. -/
def daysUntilDue (now : Timestamp) (t : Task) : Option Int :=
  match t.dueDate with
  | .value d => some (ceilDiv (d - now) 86400000)
  | _ => none

/-- The `length` of a JavaScript string counts UTF-16 code units: a character
beyond the basic plane takes two. -/
def utf16Length (s : String) : Nat :=
  (s.data.map (fun c => if c.toNat < 65536 then 1 else 2)).sum

/-- Mongoose validates on save every path of the document, those loaded
unchanged from the store as well as the modified ones, so the result depends
neither on whether the document is new (`_isNew`) nor on the stored document
it replaces (`_old`).  Validators other than `required` are skipped on an
unset value; `maxlength` compares the `length` of the string.  The list is
the messages of the failed validators, in schema order. -/
def schemaErrors (now : Timestamp) (_isNew : Bool) (_old doc : Task) : List String :=
  (if doc.title = "" then ["Title is required"] else []) ++
  (if 100 < utf16Length doc.title
    then ["Title cannot exceed 100 characters"] else []) ++
  (match doc.description with
    | some d => if 500 < utf16Length d
        then ["Description cannot exceed 500 characters"] else []
    | none => []) ++
  (if doc.status ∉ statusEnum
    then ["status is not a valid enum value"] else []) ++
  (if doc.priority ∉ priorityEnum
    then ["priority is not a valid enum value"] else []) ++
  (match doc.dueDate with
    | .value d => if d < now
        then ["Due date must be in the future"] else []
    | _ => []) ++
  (if doc.tags.any (fun g => decide (20 < utf16Length g))
    then ["Tag cannot exceed 20 characters"] else []) ++
  (match doc.estimatedHours with
    | some h => if h < 0
        then ["Estimated hours cannot be negative"]
        else if 1000 < h
        then ["Estimated hours cannot exceed 1000"] else []
    | none => []) ++
  (match doc.actualHours with
    | some h => if h < 0
        then ["Actual hours cannot be negative"] else []
    | none => [])

/-! ## `validateTask`, src/middleware/validation.js -/

/-- The sanitizers of the chain (`trim`, `normalizeEmail`) rewrite the body in
place before the handler reads it. -/
def sanitizeBody (env : Env) (b : TaskBody) : TaskBody :=
  { b with
    title := b.title.map jsTrim
    description := b.description.map jsTrim
    assigneeEmail := b.assigneeEmail.map env.normalizeEmail
    tags := b.tags.map (fun gs => gs.map jsTrim) }

/-- The length `validator.isLength` compares with its bounds: the characters
of the string (a surrogate pair is one), the variation selectors U+FE0E and
U+FE0F left out. -/
def validatorLength (s : String) : Nat :=
  (s.data.filter (fun c => c.toNat ≠ 0xFE0E ∧ c.toNat ≠ 0xFE0F)).length

/-- The messages `validationResult(req)` holds after the chain ran, in chain
order.  Only `title` is mandatory: `optional()` skips a chain whose key is
absent.  On `title`, `notEmpty` reports the default message on the raw value
and `isLength` the custom one on the trimmed value. -/
def validateTask (env : Env) (b : TaskBody) : List String :=
  (match b.title with
    | some s =>
      (if s = "" then ["Invalid value"] else []) ++
      (if validatorLength (jsTrim s) < 1 ∨ 100 < validatorLength (jsTrim s)
        then ["Title is required and must be less than 100 characters"] else [])
    | none => ["Invalid value", "Title is required and must be less than 100 characters"]) ++
  (match b.description with
    | some s => if 500 < validatorLength (jsTrim s)
        then ["Description must be less than 500 characters"] else []
    | none => []) ++
  (match b.status with
    | some s => if s ∉ statusEnum
        then ["Status must be pending, in-progress, or completed"] else []
    | none => []) ++
  (match b.priority with
    | some s => if s ∉ priorityEnum
        then ["Priority must be low, medium, or high"] else []
    | none => []) ++
  (match b.dueDate with
    | some s => if env.isISO8601 s then [] else ["Due date must be a valid date"]
    | none => []) ++
  (match b.assigneeEmail with
    | some s => if env.isEmail s then [] else ["Assignee email must be valid"]
    | none => []) ++
  (match b.estimatedHours with
    | some h => if h < 0 ∨ 1000 < h
        then ["Estimated hours must be between 0 and 1000"] else []
    | none => []) ++
  (match b.actualHours with
    | some h => if h < 0 then ["Actual hours must be a positive number"] else []
    | none => []) ++
  (match b.tags with
    | some gs =>
      (gs.filter (fun g => decide (20 < validatorLength (jsTrim g)))).map
        (fun _ => "Each tag must be less than 20 characters")
    | none => [])

/-! ## References and scopes -/

/-- The fields of a user that `populate(..., 'firstName lastName username')`
keeps. -/
def User.view (u : User) : UserView :=
  { id := u.id, firstName := u.firstName, lastName := u.lastName, username := u.username }

/-- Resolution of one reference against the users collection. -/
def lookupUser (env : Env) (id : ObjectId) : Option UserView :=
  (env.users.find? (fun u => decide (u.id = id))).map User.view

/-- The call `populate('assignee createdBy', ...)`. -/
def populateBoth (env : Env) (t : Task) : Populated :=
  { doc := t, assigneeRef := t.assignee.bind (lookupUser env),
    createdByRef := lookupUser env t.createdBy }

/-- The call `populate('assignee', ...)`; `createdBy` stays an id. -/
def populateAssignee (env : Env) (t : Task) : Populated :=
  { doc := t, assigneeRef := t.assignee.bind (lookupUser env), createdByRef := none }

/-- The filter `$or: [{createdBy: uid}, {assignee: uid}]`. -/
def readScope (uid : ObjectId) (t : Task) : Bool :=
  decide (t.createdBy = uid) || decide (t.assignee = some uid)

/-- The filter of `getTask` and `updateTask`: the id together with the read
scope. -/
def byIdInReadScope (uid id : ObjectId) (t : Task) : Bool :=
  decide (t.id = id) && readScope uid t

/-- The filter of `deleteTask`: `{_id: id, createdBy: uid}`. -/
def byIdOwned (uid id : ObjectId) (t : Task) : Bool :=
  decide (t.id = id) && decide (t.createdBy = uid)

/-- No two stored documents share an `_id` (the unique index every MongoDB
collection has). -/
def UniqueIds (store : Store) : Prop := (store.map Task.id).Nodup

instance (store : Store) : Decidable (UniqueIds store) := by
  unfold UniqueIds; infer_instance

/-! ## `getTask`, taskController.js 88-112 -/

/-- The handler `getTask`. -/
def getTask (env : Env) (store : Store) (uid id : ObjectId) : Response :=
  match store.find? (byIdInReadScope uid id) with
  | none => .message 404 false "Task not found"
  | some t => .task 200 (populateBoth env t) none

/-! ## `createTask`, taskController.js 115-155 -/

/-- Lines 131-140: when `assigneeEmail` is truthy the user directory is asked;
a hit sets `assignee` and `assigneeName`, a miss only `assigneeName`. -/
def resolveAssigneeCreate (env : Env) (body taskData : TaskBody) : TaskBody :=
  match body.assigneeEmail with
  | none => taskData
  | some e =>
    if e = "" then taskData
    else match env.users.find? (fun u => decide (u.email = e)) with
      | some u => { taskData with assignee := some (some u.id), assigneeName := some u.fullName }
      | none => { taskData with assigneeName := some e }

/-- The document `new Task(taskData)` builds: schema defaults for absent
paths, the `trim` setters, the cast of `dueDate`, the store-assigned `_id` and
the timestamps.  `assigneeEmail` is no schema path and is dropped. -/
def newDocument (env : Env) (d : TaskBody) : Except ServerError Task :=
  match d.createdBy with
  | none => .error (.validation ["Path createdBy is required."])
  | some owner =>
    match d.dueDate.map env.parseDate with
    | some none => .error (.cast "dueDate")
    | due =>
      .ok { id := env.newId
            title := jsTrim (d.title.getD "")
            description := d.description.map jsTrim
            status := d.status.getD "pending"
            priority := d.priority.getD "medium"
            dueDate := match due with
              | some (some ms) => .value ms
              | _ => .missing
            assignee := d.assignee.join
            assigneeName := d.assigneeName.map jsTrim
            createdBy := owner
            tags := (d.tags.getD []).map jsTrim
            completedAt := d.completedAt.join
            estimatedHours := d.estimatedHours
            actualHours := d.actualHours
            createdAt := env.now
            updatedAt := env.now }

/-- The handler `createTask`, with the store after it.  On a new document a
path is modified exactly when the data carried it, so
`isModified('status')` is `taskData.status` being present. -/
def createTask (env : Env) (store : Store) (uid : ObjectId) (body : TaskBody) :
    Response × Store :=
  if validateTask env body ≠ [] then (.validationFailed (validateTask env body), store)
  else
    let b := sanitizeBody env body
    let taskData := resolveAssigneeCreate env b { b with createdBy := some uid }
    match newDocument env taskData with
    | .error e => (.failed e, store)
    | .ok doc =>
      if schemaErrors env.now true doc doc ≠ [] then
        (.failed (.validation (schemaErrors env.now true doc doc)), store)
      else
        let saved := preSave env.now taskData.status.isSome doc
        (.task 201 (populateBoth env saved) (some "Task created successfully"),
          store ++ [saved])

/-! ## `updateTask`, taskController.js 158-209 -/

/-- Lines 184-194: when `assigneeEmail` is truthy the body itself is rewritten;
a miss in the directory also sets `assignee` to `null`. -/
def resolveAssigneeUpdate (env : Env) (body : TaskBody) : TaskBody :=
  match body.assigneeEmail with
  | none => body
  | some e =>
    if e = "" then body
    else match env.users.find? (fun u => decide (u.email = e)) with
      | some u => { body with assignee := some (some u.id), assigneeName := some u.fullName }
      | none => { body with assigneeName := some e, assignee := some none }

/-- The call `Object.assign(task, req.body)`: every key the body carries is
written to the document through the schema setter of its path; a `dueDate`
that is no date is the cast error the save then reports. -/
def assignBody (env : Env) (b : TaskBody) (t : Task) : Except ServerError Task :=
  match b.dueDate.map env.parseDate with
  | some none => .error (.cast "dueDate")
  | due =>
    .ok { id := t.id
          title := match b.title with
            | some s => (jsTrim s)
            | none => t.title
          description := match b.description with
            | some s => some (jsTrim s)
            | none => t.description
          status := b.status.getD t.status
          priority := b.priority.getD t.priority
          dueDate := match due with
            | some (some ms) => .value ms
            | _ => t.dueDate
          assignee := match b.assignee with
            | some a => a
            | none => t.assignee
          assigneeName := match b.assigneeName with
            | some s => some (jsTrim s)
            | none => t.assigneeName
          createdBy := b.createdBy.getD t.createdBy
          tags := match b.tags with
            | some gs => gs.map jsTrim
            | none => t.tags
          completedAt := match b.completedAt with
            | some c => c
            | none => t.completedAt
          estimatedHours := match b.estimatedHours with
            | some h => some h
            | none => t.estimatedHours
          actualHours := match b.actualHours with
            | some h => some h
            | none => t.actualHours
          createdAt := t.createdAt
          updatedAt := t.updatedAt }

/-- The timestamps plugin: `updatedAt` becomes the current time when the
document was modified. -/
def stampUpdate (now : Timestamp) (old doc : Task) : Task :=
  if doc = old then doc else { doc with updatedAt := now }

/-- The write of `task.save()`: the stored document with the `_id` of `doc`
is replaced. -/
def replaceDoc (doc : Task) : Store → Store
  | [] => []
  | t :: ts => if t.id = doc.id then doc :: ts else t :: replaceDoc doc ts

/-- The handler `updateTask`, with the store after it.  Setting a path marks it
modified when the new value differs from the stored one, so
`isModified('status')` is `doc.status ≠ t.status`. -/
def updateTask (env : Env) (store : Store) (uid id : ObjectId) (body : TaskBody) :
    Response × Store :=
  if validateTask env body ≠ [] then (.validationFailed (validateTask env body), store)
  else
    match store.find? (byIdInReadScope uid id) with
    | none => (.message 404 false "Task not found", store)
    | some t =>
      match assignBody env (resolveAssigneeUpdate env (sanitizeBody env body)) t with
      | .error e => (.failed e, store)
      | .ok doc =>
        if schemaErrors env.now false t doc ≠ [] then
          (.failed (.validation (schemaErrors env.now false t doc)), store)
        else
          let saved := preSave env.now (decide (doc.status ≠ t.status)) (stampUpdate env.now t doc)
          (.task 200 (populateBoth env saved) (some "Task updated successfully"),
            replaceDoc saved store)

/-! ## `deleteTask`, taskController.js 212-233 -/

/-- The handler `deleteTask`, with the store after it: `findOneAndDelete`
removes the first document the filter matches. -/
def deleteTask (store : Store) (uid id : ObjectId) : Response × Store :=
  match store.find? (byIdOwned uid id) with
  | none => (.message 404 false "Task not found or unauthorized", store)
  | some _ => (.message 200 true "Task deleted successfully", store.eraseP (byIdOwned uid id))

/-! ## `getTasks`, taskController.js 7-85 -/

/-- The query string of `GET /api/tasks`, every parameter a string when
present. -/
structure ListQuery where
  page : Option String
  limit : Option String
  status : Option String
  priority : Option String
  assignee : Option String
  search : Option String
  sortBy : Option String
  sortOrder : Option String
  dueDate : Option String
  deriving DecidableEq, Repr

/-- The query string with no parameter. -/
def ListQuery.empty : ListQuery :=
  { page := none, limit := none, status := none, priority := none, assignee := none,
    search := none, sortBy := none, sortOrder := none, dueDate := none }

/-- The value of a digit character in bases up to 16. -/
def digitValue (c : Char) : Option Nat :=
  if '0' ≤ c ∧ c ≤ '9' then some (c.toNat - 48)
  else if 'a' ≤ c ∧ c ≤ 'f' then some (c.toNat - 87)
  else if 'A' ≤ c ∧ c ≤ 'F' then some (c.toNat - 55)
  else none

/-- The values of the longest run of leading digits of the radix. -/
def takeDigits (radix : Nat) : List Char → List Nat
  | [] => []
  | c :: cs =>
    match digitValue c with
    | some d => if d < radix then d :: takeDigits radix cs else []
    | none => []

/-- JavaScript `parseInt(s)` with no radix argument: leading white space and a
sign are skipped, a `0x` start selects base 16, the longest run of digits is
read, and without any digit the result is `NaN` (`none`).  The rounding of
values beyond 2^53 to a double is not modelled. -/
def parseInt (s : String) : Option Int :=
  let cs := s.toList.dropWhile isJsSpace
  let negative := cs.head? = some '-'
  let cs := if cs.head? = some '-' ∨ cs.head? = some '+' then cs.tail else cs
  let hex := cs.take 2 = ['0', 'x'] ∨ cs.take 2 = ['0', 'X']
  let radix := if hex then 16 else 10
  let ds := takeDigits radix (if hex then cs.drop 2 else cs)
  if ds = [] then none
  else
    let n : Nat := ds.foldl (fun acc d => acc * radix + d) 0
    some (if negative then -(n : Int) else (n : Int))

/-- The bounds `$gte` / `$lt` of the `dueDate` filter; `none` is an Invalid
Date. -/
structure DateRange where
  gte : Option Timestamp
  lt : Option Timestamp
  deriving DecidableEq, Repr

/-- The object `filter` of `getTasks`; `none` is a key the handler did not
set.  `search` stands for the `$or` of the three `$regex` clauses. -/
structure TaskFilter where
  createdBy : ObjectId
  status : Option String
  priority : Option String
  assignee : Option String
  search : Option String
  dueDate : Option DateRange
  deriving DecidableEq, Repr

/-- The test `x && x !== 'all'` on a query parameter: the empty string is
falsy. -/
def selective (x : Option String) : Option String :=
  match x with
  | some v => if v = "" ∨ v = "all" then none else some v
  | none => none

/-- Lines 21-50: the filter object. -/
def buildFilter (env : Env) (uid : ObjectId) (q : ListQuery) : TaskFilter :=
  { createdBy := uid
    status := selective q.status
    priority := selective q.priority
    assignee := selective q.assignee
    search := match q.search with
      | some v => if v = "" then none else some v
      | none => none
    dueDate := match q.dueDate with
      | some v =>
        if v = "" then none
        else match env.parseDate v with
          | some d =>
            some { gte := some (env.setHours d 0 0 0 0)
                   lt := some (env.setHours (env.setHours d 0 0 0 0) 23 59 59 999) }
          | none => some { gte := none, lt := none }
      | none => none }

/-- A regular expression tested against a string path: an unset path matches
nothing. -/
def regexOn (m : String → Bool) : Option String → Bool
  | some v => m v
  | none => false

/-- The predicate the store evaluates for a filter, or the error of a value
that does not cast (an `assignee` that is no ObjectId, an Invalid Date bound)
or of a pattern that does not compile. -/
def compileFilter (env : Env) (f : TaskFilter) : Except ServerError (Task → Bool) :=
  match f.assignee.map env.castObjectId with
  | some none => .error (.cast "assignee")
  | who =>
    match f.search.map env.regex with
    | some none => .error (.store "Regular expression is invalid")
    | pattern =>
      match f.dueDate with
      | some { gte := none, lt := _ } => .error (.cast "dueDate")
      | some { gte := some _, lt := none } => .error (.cast "dueDate")
      | range =>
        .ok (fun t =>
          decide (t.createdBy = f.createdBy) &&
          (match f.status with
            | some v => decide (t.status = v)
            | none => true) &&
          (match f.priority with
            | some v => decide (t.priority = v)
            | none => true) &&
          (match who with
            | some (some a) => decide (t.assignee = some a)
            | _ => true) &&
          (match pattern with
            | some (some m) =>
              m t.title || regexOn m t.description || regexOn m t.assigneeName
            | _ => true) &&
          (match range with
            | some { gte := some lo, lt := some hi } =>
              (match t.dueDate with
                | .value d => decide (lo ≤ d) && decide (d < hi)
                | _ => false)
            | _ => true))

/-- A value a sort key can take, with the BSON order of the types involved:
an empty array sorts lowest, then `null` (also an absent path), numbers,
strings, ObjectIds, dates. -/
inductive SortVal where
  | emptyArray
  | null
  | num (q : ℚ)
  | str (s : String)
  | oid (n : ObjectId)
  | date (t : Timestamp)
  deriving DecidableEq, Repr

/-- The rank of the BSON type. -/
def SortVal.rank : SortVal → Nat
  | .emptyArray => 0
  | .null => 5
  | .num _ => 10
  | .str _ => 15
  | .oid _ => 35
  | .date _ => 45

/-- The BSON comparison `a ≤ b`. -/
def SortVal.le : SortVal → SortVal → Bool
  | .num a, .num b => decide (a ≤ b)
  | .str a, .str b => decide (a ≤ b)
  | .oid a, .oid b => decide (a ≤ b)
  | .date a, .date b => decide (a ≤ b)
  | a, b => decide (a.rank ≤ b.rank)

/-- The least string of a list, `none` for the empty list. -/
def leastStr : List String → Option String
  | [] => none
  | a :: as =>
    match leastStr as with
    | some b => some (if a ≤ b then a else b)
    | none => some a

/-- The greatest string of a list, `none` for the empty list. -/
def greatestStr : List String → Option String
  | [] => none
  | a :: as =>
    match greatestStr as with
    | some b => some (if a ≤ b then b else a)
    | none => some a

/-- The sort key of a document for the path `sortBy`: a path the document lacks
(or the schema does not know) is `null`; an array sorts by its least element
ascending and by its greatest element descending. -/
def sortKey (ascending : Bool) (sortBy : String) (t : Task) : SortVal :=
  let ofStr : Option String → SortVal := fun o =>
    match o with
    | some v => .str v
    | none => .null
  let ofNum : Option ℚ → SortVal := fun o =>
    match o with
    | some v => .num v
    | none => .null
  if sortBy = "_id" then .oid t.id
  else if sortBy = "title" then .str t.title
  else if sortBy = "description" then ofStr t.description
  else if sortBy = "status" then .str t.status
  else if sortBy = "priority" then .str t.priority
  else if sortBy = "dueDate" then
    (match t.dueDate with
      | .value d => .date d
      | _ => .null)
  else if sortBy = "assignee" then
    (match t.assignee with
      | some a => .oid a
      | none => .null)
  else if sortBy = "assigneeName" then ofStr t.assigneeName
  else if sortBy = "createdBy" then .oid t.createdBy
  else if sortBy = "tags" then
    (match (if ascending then leastStr t.tags else greatestStr t.tags) with
      | some v => .str v
      | none => .emptyArray)
  else if sortBy = "completedAt" then
    (match t.completedAt with
      | some d => .date d
      | none => .null)
  else if sortBy = "estimatedHours" then ofNum t.estimatedHours
  else if sortBy = "actualHours" then ofNum t.actualHours
  else if sortBy = "createdAt" then .date t.createdAt
  else if sortBy = "updatedAt" then .date t.updatedAt
  else .null

/-- The call `.sort(sort)` with `sort[sortBy] = sortOrder === 'asc' ? 1 : -1`.
Documents with equal keys keep their store order (MongoDB promises no order
among them). -/
def sortTasks (sortBy : String) (ascending : Bool) (ts : List Task) : List Task :=
  if ascending then
    ts.insertionSort (fun a b => SortVal.le (sortKey true sortBy a) (sortKey true sortBy b) = true)
  else
    ts.insertionSort (fun a b => SortVal.le (sortKey false sortBy b) (sortKey false sortBy a) = true)

/-- The call `.limit(n)`: `0` is no limit, a negative number limits to its
absolute value. -/
def applyLimit (n : Int) (ts : List Task) : List Task :=
  if n = 0 then ts else ts.take n.natAbs

/-- The handler `getTasks`.  `page` and `limit` default to the numbers 1 and
10; a `NaN` or negative `skip` and a `NaN` limit are rejected by the query
layer, and so is a filter that does not compile; the fetch and the count run
on the same filter. -/
def getTasks (env : Env) (store : Store) (uid : ObjectId) (q : ListQuery) : Response :=
  let page : Option Int := match q.page with
    | some v => parseInt v
    | none => some 1
  let limit : Option Int := match q.limit with
    | some v => parseInt v
    | none => some 10
  let sortBy := q.sortBy.getD "createdAt"
  let ascending := decide (q.sortOrder.getD "desc" = "asc")
  match page, limit with
  | some p, some l =>
    let skip := (p - 1) * l
    if skip < 0 then .failed (.store "Skip value must be non-negative")
    else
      match compileFilter env (buildFilter env uid q) with
      | .error e => .failed e
      | .ok matching =>
        let found := store.filter matching
        let tasks := applyLimit l ((sortTasks sortBy ascending found).drop skip.toNat)
        let total := found.length
        .list (tasks.map (populateAssignee env))
          { current := p
            total := if l = 0 then none else some (ceilDiv total l)
            count := tasks.length
            totalCount := total }
  | none, _ => .failed (.cast "skip")
  | _, none => .failed (.cast "limit")

/-! ## `getTaskStats`, taskController.js 236-305 -/

/-- The aggregation operator `$lt: ['$dueDate', new Date()]`.  Aggregation
comparisons order values of different BSON types by type: an absent field
and `null` both sort before every date. -/
def dueBefore (now : Timestamp) : Field Timestamp → Bool
  | .missing => true
  | .null => true
  | .value d => decide (d < now)

/-- The aggregation operator `$ne: ['$dueDate', null]`.  In aggregation
expressions an absent field is not equal to `null` (it sorts before it), so
only a stored `null` fails the test. -/
def dueNotNull : Field Timestamp → Bool
  | .null => false
  | _ => true

/-- The `$cond` of the `overdue` accumulator, lines 264-274. -/
def overdueCond (now : Timestamp) (t : Task) : Bool :=
  decide (t.status ≠ "completed") && dueBefore now t.dueDate && dueNotNull t.dueDate

/-- Lines 294-296: `Math.round((completed / total) * 100)` in double
arithmetic (the division is rounded to a double, and so is the product), or
`0` when `total` is `0`. -/
def completionRate (completed total : Nat) : Nat :=
  if 0 < total then
    let q := toDouble { num := completed, den := total }
    mathRound (toDouble { num := q.num * 100, den := q.den })
  else 0

/-- The `$group` stage, lines 250-280, over the documents `$match` kept: one
group document, or none when there is no input document. -/
def groupStats (now : Timestamp) (matched : List Task) : List Stats :=
  if matched = [] then []
  else
    [{ total := matched.length
       completed := matched.countP (fun t => decide (t.status = "completed"))
       pending := matched.countP (fun t => decide (t.status = "pending"))
       inProgress := matched.countP (fun t => decide (t.status = "in-progress"))
       overdue := matched.countP (overdueCond now)
       highPriority := matched.countP (fun t => decide (t.priority = "high"))
       completionRate := 0 }]

/-- The payload of `getTaskStats`: `stats[0]` or the all-zero default, with
`completionRate` then computed from it. -/
def taskStats (now : Timestamp) (store : Store) (uid : ObjectId) : Stats :=
  let result := (groupStats now (store.filter (readScope uid))).head?.getD
    { total := 0, completed := 0, pending := 0, inProgress := 0, overdue := 0,
      highPriority := 0, completionRate := 0 }
  { result with completionRate := completionRate result.completed result.total }

/-- The handler `getTaskStats`. -/
def getTaskStats (env : Env) (store : Store) (uid : ObjectId) : Response :=
  .stats (taskStats env.now store uid)

/-! ## `bulkUpdateTasks`, taskController.js 308-338 -/

/-- The `taskIds` member of the bulk request body. -/
inductive TaskIds where
  | absent
  | notArray
  | array (ids : List ObjectId)
  deriving DecidableEq, Repr

/-- The `updates` member of the bulk request body, one optional key per schema
path; an inner `none` is the value `null`.  No validator runs on it. -/
structure Updates where
  title : Option String
  description : Option (Option String)
  status : Option String
  priority : Option String
  dueDate : Option (Option Timestamp)
  assignee : Option (Option ObjectId)
  assigneeName : Option (Option String)
  createdBy : Option ObjectId
  tags : Option (List String)
  completedAt : Option (Option Timestamp)
  estimatedHours : Option (Option ℚ)
  actualHours : Option (Option ℚ)
  deriving DecidableEq, Repr

/-- The payload with no key. -/
def Updates.empty : Updates :=
  { title := none, description := none, status := none, priority := none,
    dueDate := none, assignee := none, assigneeName := none, createdBy := none,
    tags := none, completedAt := none, estimatedHours := none, actualHours := none }

/-- The update `$set: updates` on one document: each key of the payload
overwrites its path (through the schema setter), and the timestamps plugin
adds `updatedAt`.  Neither validators nor the save hook run. -/
def applySet (now : Timestamp) (u : Updates) (t : Task) : Task :=
  { id := t.id
    title := match u.title with
      | some s => (jsTrim s)
      | none => t.title
    description := match u.description with
      | some d => d.map jsTrim
      | none => t.description
    status := u.status.getD t.status
    priority := u.priority.getD t.priority
    dueDate := match u.dueDate with
      | some (some d) => .value d
      | some none => .null
      | none => t.dueDate
    assignee := match u.assignee with
      | some a => a
      | none => t.assignee
    assigneeName := match u.assigneeName with
      | some n => n.map jsTrim
      | none => t.assigneeName
    createdBy := u.createdBy.getD t.createdBy
    tags := match u.tags with
      | some gs => gs.map jsTrim
      | none => t.tags
    completedAt := match u.completedAt with
      | some c => c
      | none => t.completedAt
    estimatedHours := match u.estimatedHours with
      | some h => h
      | none => t.estimatedHours
    actualHours := match u.actualHours with
      | some h => h
      | none => t.actualHours
    createdAt := t.createdAt
    updatedAt := now }

/-- The filter of the bulk update: `{_id: {$in: taskIds}, createdBy: uid}`. -/
def bulkScope (uid : ObjectId) (ids : List ObjectId) (t : Task) : Bool :=
  decide (t.id ∈ ids) && decide (t.createdBy = uid)

/-- The handler `bulkUpdateTasks`, with the store after it. -/
def bulkUpdateTasks (env : Env) (store : Store) (uid : ObjectId) (taskIds : TaskIds)
    (updates : Updates) : Response × Store :=
  match taskIds with
  | .array (i :: is) =>
    let after := store.map (fun t =>
      if bulkScope uid (i :: is) t then applySet env.now updates t else t)
    (.bulk (store.countP (bulkScope uid (i :: is)))
        (store.countP (fun t =>
          bulkScope uid (i :: is) t && decide (applySet env.now updates t ≠ t))),
      after)
  | _ => (.message 400 false "Task IDs array is required", store)

/-! ## Sample data for the concrete runs -/

/-- An environment with an empty user directory and a library that accepts
every string; the clock stands at 1000. -/
def sampleEnv : Env :=
  { now := 1000, newId := 99, users := [], isISO8601 := fun _ => true,
    isEmail := fun _ => true, normalizeEmail := fun s => s, parseDate := fun _ => none,
    castObjectId := fun _ => none, setHours := fun t _ _ _ _ => t, regex := fun _ => none }

/-- A pending task of user 1, assigned to user 2, with no due date. -/
def sampleTask : Task :=
  { id := 10, title := "a", description := none, status := "pending", priority := "medium",
    dueDate := .missing, assignee := some 2, assigneeName := none, createdBy := 1, tags := [],
    completedAt := none, estimatedHours := none, actualHours := none, createdAt := 0,
    updatedAt := 0 }

/-- A task of user 3 that is assigned to nobody. -/
def otherTask : Task :=
  { sampleTask with id := 11, title := "b", assignee := none, createdBy := 3 }

/-- A body that only renames the task. -/
def renameBody : TaskBody := { TaskBody.empty with title := some "x" }

/-- A body that carries a `createdBy` key naming user 7. -/
def spoofBody : TaskBody := { TaskBody.empty with title := some "x", createdBy := some 7 }

/-- A body that carries a `completedAt` key. -/
def stampBody : TaskBody :=
  { TaskBody.empty with title := some "x", completedAt := some (some 5) }

/-- A body that sets the status to completed. -/
def completeBody : TaskBody := { TaskBody.empty with title := some "x", status := some "completed" }

/-- A bulk payload that sets the status to completed. -/
def completeUpdates : Updates := { Updates.empty with status := some "completed" }

/-- A bulk payload that carries a `createdBy` key naming user 7. -/
def spoofUpdates : Updates := { Updates.empty with createdBy := some 7 }

/-- A task of user 3 that is assigned to user 1. -/
def assignedTask : Task :=
  { sampleTask with id := 12, title := "c", assignee := some 1, createdBy := 3 }

/-- The clock of the statistics runs. -/
def statsNow : Timestamp := 100000000

/-- The four tasks the route test of `GET /api/tasks/stats` sets up for its
user: pending, completed, in-progress (none of them with a due date) and a
pending one that was due a day ago. -/
def statsStore : Store :=
  [ { sampleTask with id := 21, assignee := none },
    { sampleTask with id := 22, assignee := none, status := "completed",
                      completedAt := some 0 },
    { sampleTask with id := 23, assignee := none, status := "in-progress" },
    { sampleTask with id := 24, assignee := none, dueDate := .value (statsNow - 86400000) } ]

/-- The overdue count in the words of the specification: the tasks in the read
scope whose status is not completed and whose `dueDate` is set and lies before
the current time. -/
def overdueBySpec (now : Timestamp) (store : Store) (uid : ObjectId) : Nat :=
  store.countP (fun t =>
    decide (t.createdBy = uid ∨ t.assignee = some uid) && decide (t.status ≠ "completed") &&
      (match t.dueDate with
        | .value d => decide (d < now)
        | _ => false))

/-- The completion rate in the words of the specification: `completed / total
* 100` rounded to the nearest integer, a half going up, computed exactly; `0`
when `total` is `0`. -/
def completionRateBySpec (completed total : Nat) : Nat :=
  if 0 < total then (200 * completed + total) / (2 * total) else 0

/-- Forty tasks of user 1, the first twenty-three of them completed. -/
def fortyStore : Store :=
  (List.range 40).map (fun i =>
    { sampleTask with
      id := 100 + i
      assignee := none
      status := if i < 23 then "completed" else "pending"
      completedAt := if i < 23 then some 0 else none })

/-- The number `parseInt(page)` of `getTasks`, the parameter defaulting to the
number 1; `none` is `NaN`. -/
def pageParam (q : ListQuery) : Option Int :=
  match q.page with
  | some v => parseInt v
  | none => some 1

/-- The number `parseInt(limit)` of `getTasks`, the parameter defaulting to the
number 10; `none` is `NaN`. -/
def limitParam (q : ListQuery) : Option Int :=
  match q.limit with
  | some v => parseInt v
  | none => some 10

/-- The documents a listing query fetches once its filter is compiled: the
matching documents, sorted, with `skip` of them dropped and the limit
applied. -/
def fetchPage (store : Store) (q : ListQuery) (matching : Task → Bool) (p l : Int) :
    List Task :=
  applyLimit l
    ((sortTasks (q.sortBy.getD "createdAt") (decide (q.sortOrder.getD "desc" = "asc"))
      (store.filter matching)).drop ((p - 1) * l).toNat)

/-- Fifteen tasks of user 1, created at the times 0 to 14. -/
def fifteenStore : Store :=
  (List.range 15).map (fun i =>
    { sampleTask with id := 100 + i, assignee := none, createdAt := (i : Int) })

/-- The query `page=2&limit=10`. -/
def pageTwoQuery : ListQuery := { ListQuery.empty with page := some "2", limit := some "10" }

/-- The test "the pattern `p`, compared character by character with `eq`,
stands at the start of the subject". -/
def matchesAt (eq : Char → Char → Bool) : List Char → List Char → Bool
  | [], _ => true
  | _ :: _, [] => false
  | p :: ps, c :: cs => eq p c && matchesAt eq ps cs

/-- The test "the pattern stands somewhere in the subject". -/
def occursIn (eq : Char → Char → Bool) (p : List Char) : List Char → Bool
  | [] => matchesAt eq p []
  | c :: cs => matchesAt eq p (c :: cs) || occursIn eq p cs

/-- The search of the specification: `s` occurs in the subject as a substring,
compared character by character without regard to (ASCII) case. -/
def ciContains (s subject : String) : Bool :=
  occursIn (fun a b => a.toLower == b.toLower) s.data subject.data

/-- The characters with a special meaning in a regular expression: the
backslash, `^ $ . | ? * + ( ) [ ]` and the two braces. -/
def regexMeta : List Char :=
  [Char.ofNat 92, '^', '$', '.', '|', '?', '*', '+', '(', ')', '[', ']', Char.ofNat 123,
    Char.ofNat 125]

/-- The test of a pattern made of ordinary characters and `.` under the option
`i`: `.` stands for any character but the line feed, an ordinary character for
itself in either case. -/
def dotSearch (p subject : String) : Bool :=
  occursIn (fun a b => if a = '.' then b != Char.ofNat 10 else a.toLower == b.toLower)
    p.data subject.data

/-- A regular-expression engine for the patterns made of ordinary characters
and `.`, which it tests as PCRE does under the option `i`.  To any other
pattern it answers as to one that does not compile; the runs below use only
`(` of those, which indeed does not compile. -/
def dotRegex (p : String) : Option (String → Bool) :=
  if p.data.all (fun c => c = '.' || !regexMeta.contains c) then some (dotSearch p) else none

/-- The method `setHours(h, m, s, ms)` on a server whose time zone is UTC. -/
def utcSetHours (t : Timestamp) (h m s ms : Nat) : Timestamp :=
  t - t % 86400000 + ((((h * 60 + m) * 60 + s) * 1000 + ms : Nat) : Int)

/-- A server in UTC with the engine `dotRegex`; its date parser knows the one
date string the runs use, `1970-01-02` (midnight UTC, 86400000 ms). -/
def utcEnv : Env :=
  { sampleEnv with
    parseDate := fun s => if s = "1970-01-02" then some 86400000 else none
    setHours := utcSetHours
    regex := dotRegex }

/-- A task of user 1 titled `abc`, with no description and no assignee name. -/
def abcTask : Task := { sampleTask with title := "abc", assignee := none }

/-- The query `search=a.c`. -/
def dotQuery : ListQuery := { ListQuery.empty with search := some "a.c" }

/-- The query `search=B`. -/
def letterQuery : ListQuery := { ListQuery.empty with search := some "B" }

/-- The query `search=(`. -/
def parenQuery : ListQuery := { ListQuery.empty with search := some "(" }

/-- The query `dueDate=1970-01-02`. -/
def dayQuery : ListQuery := { ListQuery.empty with dueDate := some "1970-01-02" }

/-- A task of user 1 due at 23:59:59.999 UTC of 1970-01-02. -/
def lastInstantTask : Task :=
  { sampleTask with id := 31, assignee := none, dueDate := .value (86400000 + 86399999) }

/-- A task of user 1 due at 23:59:59.998 UTC of 1970-01-02. -/
def lateTask : Task :=
  { sampleTask with id := 32, assignee := none, dueDate := .value (86400000 + 86399998) }

/-- The day filter in the words of the specification: the task has a due date
in the half-open interval from the start of the day to the start of the next
one. -/
def dueOnDayBySpec (startOfDay : Timestamp) (t : Task) : Bool :=
  match t.dueDate with
  | .value d => decide (startOfDay ≤ d) && decide (d < startOfDay + 86400000)
  | _ => false

/-- The query `status=` (the parameter present with an empty value). -/
def blankStatusQuery : ListQuery := { ListQuery.empty with status := some "" }

/-- The query `status=completed&priority=high&assignee=all`. -/
def completedHighQuery : ListQuery :=
  { ListQuery.empty with
    status := some "completed", priority := some "high", assignee := some "all" }

/-- A completed task of user 1 with priority high. -/
def doneTask : Task :=
  { sampleTask with id := 41, status := "completed", priority := "high",
                    completedAt := some 0 }

/-- A bulk payload that sets the priority to high. -/
def highUpdates : Updates := { Updates.empty with priority := some "high" }

/-- The method `Array.prototype.join` on an array of strings. -/
def jsJoin (sep : String) : List String → String
  | [] => ""
  | [a] => a
  | a :: b :: rest => a ++ sep ++ jsJoin sep (b :: rest)

/-- The `width` low decimal digits of `n`, most significant first. -/
def fixedDigits : Nat → Nat → List Char
  | 0, _ => []
  | width + 1, n => fixedDigits width (n / 10) ++ [Char.ofNat (48 + n % 10)]

/-- The civil date (year, month, day) of a count of days since 1970-01-01 in
the proleptic Gregorian calendar, which `Date` uses. -/
def civilFromDays (days : Int) : Int × Nat × Nat :=
  let z := days + 719468
  let era := z / 146097
  let doe := (z - era * 146097).toNat
  let yoe := (doe - doe / 1460 + doe / 36524 - doe / 146096) / 365
  let doy := doe - (365 * yoe + yoe / 4 - yoe / 100)
  let mp := (5 * doy + 2) / 153
  let d := doy - (153 * mp + 2) / 5 + 1
  let m := if mp < 10 then mp + 3 else mp - 9
  ((yoe : Int) + era * 400 + (if m ≤ 2 then 1 else 0), m, d)

/-- The expression `date.toISOString().split('T')[0]`: the UTC calendar date
as `YYYY-MM-DD`, the year with a sign and six digits outside 0 to 9999. -/
def isoDate (t : Timestamp) : String :=
  let ymd := civilFromDays (t / 86400000)
  let year : List Char :=
    if 0 ≤ ymd.1 ∧ ymd.1 ≤ 9999 then fixedDigits 4 ymd.1.toNat
    else if ymd.1 < 0 then '-' :: fixedDigits 6 ymd.1.natAbs
    else '+' :: fixedDigits 6 ymd.1.natAbs
  ⟨year ++ ['-'] ++ fixedDigits 2 ymd.2.1 ++ ['-'] ++ fixedDigits 2 ymd.2.2⟩

/-- The double quote character as a string. -/
def dquote : String := String.singleton (Char.ofNat 34)

/-- The line feed character as a string. -/
def newline : String := String.singleton (Char.ofNat 10)

/-- The array `headers` of `convertToCSV`, taskController.js 374-377. -/
def csvHeaders : List String :=
  ["Title", "Description", "Status", "Priority", "Due Date", "Assignee", "Created At",
    "Completed At"]

/-- The row of one task, lines 379-388: `x || ''` turns an unset or empty
string into the empty string, and a date is printed only when it is set. -/
def csvRow (t : Task) : List String :=
  [ t.title,
    t.description.getD "",
    t.status,
    t.priority,
    (match t.dueDate with
      | .value d => isoDate d
      | _ => ""),
    t.assigneeName.getD "",
    isoDate t.createdAt,
    (match t.completedAt with
      | some d => isoDate d
      | none => "") ]

/-- The template literal that wraps a field in double quotes, line 391. -/
def csvQuote (field : String) : String := dquote ++ field ++ dquote

/-- The helper `convertToCSV`, taskController.js 373-393. -/
def convertToCSV (tasks : List Task) : String :=
  jsJoin newline
    ((csvHeaders :: tasks.map csvRow).map (fun row => jsJoin "," (row.map csvQuote)))

/-- A task with a description that holds a double quote, a due date and a
completion date. -/
def quotedTask : Task :=
  { sampleTask with
    id := 51, title := "Say", description := some ("a" ++ dquote ++ "b"),
    assigneeName := some "Ann",
    status := "completed", dueDate := .value 1705312800000,
    completedAt := some 1709251199999, createdAt := 951782400000 }

/-- The validator of `dueDate`, Task.js 28-30:
`!date || date >= new Date()`. -/
def dueDateValidator (now : Timestamp) : Field Timestamp → Bool
  | .value d => decide (now ≤ d)
  | _ => true

/-- A body with the due date `1970-01-02` (midnight UTC, 86400000 ms). -/
def dueBody : TaskBody :=
  { TaskBody.empty with title := some "x", dueDate := some "1970-01-02" }

/-- The server `utcEnv` with the clock at the instant of the due date of
`dueBody`. -/
def atDueEnv : Env := { utcEnv with now := 86400000 }

/-- The server `utcEnv` with the clock one millisecond after the due date of
`dueBody`. -/
def pastDueEnv : Env := { utcEnv with now := 86400001 }

/-- The body `{status: 'in-progress'}` of the load test's update. -/
def statusOnlyBody : TaskBody := { TaskBody.empty with status := some "in-progress" }

/-- The matching documents of a listing query in the order of its sort. -/
def sortedMatching (store : Store) (q : ListQuery) (matching : Task → Bool) : List Task :=
  sortTasks (q.sortBy.getD "createdAt") (decide (q.sortOrder.getD "desc" = "asc"))
    (store.filter matching)

/-- The slice of a list that page `p` (counted from 1) of size `L` shows. -/
def pageSlice (l : List Task) (L p : Nat) : List Task := (l.drop ((p - 1) * L)).take L

/-- The query `limit=10`. -/
def limitTenQuery : ListQuery := { ListQuery.empty with limit := some "10" }

/-- A bulk payload that sets a status outside the enum. -/
def archiveUpdates : Updates := { Updates.empty with status := some "archived" }

/-! ## Lemmas on the store -/

theorem find_none_of_forall {p : Task → Bool} {store : Store}
    (h : ∀ t ∈ store, p t = false) : store.find? p = none := by
  rw [List.find?_eq_none]
  intro t ht
  simp [h t ht]

theorem eq_of_mem_of_id_eq {store : Store} (hu : UniqueIds store) {s t : Task}
    (hs : s ∈ store) (ht : t ∈ store) (hid : s.id = t.id) : s = t := by
  induction store with
  | nil => cases hs
  | cons a as ih =>
    have hnd : a.id ∉ as.map Task.id ∧ (as.map Task.id).Nodup := by
      simpa [UniqueIds] using hu
    rcases List.mem_cons.mp hs with rfl | hs'
    · rcases List.mem_cons.mp ht with rfl | ht'
      · rfl
      · exact absurd (hid ▸ List.mem_map_of_mem Task.id ht') hnd.1
    · rcases List.mem_cons.mp ht with rfl | ht'
      · exact absurd (hid ▸ List.mem_map_of_mem Task.id hs') hnd.1
      · exact ih hnd.2 hs' ht'

theorem find_eq_of_unique {p : Task → Bool} {store : Store} (hu : UniqueIds store)
    {t : Task} (ht : t ∈ store) (hp : p t = true) (hid : ∀ s, p s = true → s.id = t.id) :
    store.find? p = some t := by
  cases hf : store.find? p with
  | none =>
    rw [List.find?_eq_none] at hf
    exact absurd hp (hf t ht)
  | some s =>
    have hs := List.mem_of_find?_eq_some hf
    have hps := List.find?_some hf
    rw [eq_of_mem_of_id_eq hu hs ht (hid s hps)]

theorem readScope_eq_true_iff (uid : ObjectId) (t : Task) :
    readScope uid t = true ↔ t.createdBy = uid ∨ t.assignee = some uid := by
  simp [readScope]

theorem readScope_eq_false_iff (uid : ObjectId) (t : Task) :
    readScope uid t = false ↔ t.createdBy ≠ uid ∧ t.assignee ≠ some uid := by
  simp [readScope]

/-! ## The save hook -/

/-- C8: the save hook is the status state machine on `completedAt`.  A save
that changes status to completed stamps an unset `completedAt` with the
current time and leaves a set one as it is; a save that changes status to
pending or in-progress clears it; a save that does not change status leaves
the document as it was.  No other path is touched. -/
theorem preSave_state_machine (now : Timestamp) (doc : Task) :
    (doc.status = "completed" → doc.completedAt = none →
      preSave now true doc = { doc with completedAt := some now }) ∧
    (doc.status = "completed" → doc.completedAt ≠ none → preSave now true doc = doc) ∧
    (doc.status = "pending" ∨ doc.status = "in-progress" →
      preSave now true doc = { doc with completedAt := none }) ∧
    preSave now false doc = doc := by
  refine ⟨?_, ?_, ?_, ?_⟩
  · intro hs hc
    simp [preSave, hs, hc]
  · intro hs hc
    simp [preSave, hs, hc]
  · intro hs
    have hne : doc.status ≠ "completed" := by
      rcases hs with h | h <;> rw [h] <;> decide
    simp [preSave, hne]
  · simp [preSave]

/-- The hook of C8 run on three documents: a task just set to completed, the
same with a completion time already stored, and a completed task set back to
pending. -/
theorem preSave_state_machine_witness :
    preSave 1000 true { sampleTask with status := "completed" }
        = { sampleTask with status := "completed", completedAt := some 1000 } ∧
    preSave 1000 true { sampleTask with status := "completed", completedAt := some 5 }
        = { sampleTask with status := "completed", completedAt := some 5 } ∧
    preSave 1000 true { sampleTask with completedAt := some 5 }
        = { sampleTask with completedAt := none } ∧
    preSave 1000 false { sampleTask with completedAt := some 5 }
        = { sampleTask with completedAt := some 5 } :=
  ⟨(preSave_state_machine 1000 { sampleTask with status := "completed" }).1 rfl rfl,
   (preSave_state_machine 1000
      { sampleTask with status := "completed", completedAt := some 5 }).2.1 rfl (by decide),
   (preSave_state_machine 1000 { sampleTask with completedAt := some 5 }).2.2.1 (Or.inl rfl),
   (preSave_state_machine 1000 { sampleTask with completedAt := some 5 }).2.2.2⟩

/-! ## Single-task reads and deletes -/

/-- C5: `getTask` on the id of a stored task returns that task (with both
references resolved, status 200) exactly when the caller is its creator or its
assignee; for any other caller the response is 404 with the body
`{success: false, message: 'Task not found'}`, the very response an id that
no stored task has receives. -/
theorem getTask_read_scope (env : Env) (store : Store) (uid : ObjectId) (t : Task)
    (hu : UniqueIds store) (ht : t ∈ store) :
    (t.createdBy = uid ∨ t.assignee = some uid →
      getTask env store uid t.id = .task 200 (populateBoth env t) none) ∧
    (¬(t.createdBy = uid ∨ t.assignee = some uid) →
      getTask env store uid t.id = .message 404 false "Task not found") ∧
    (∀ absent : ObjectId, (∀ s ∈ store, s.id ≠ absent) →
      getTask env store uid absent = .message 404 false "Task not found") := by
  refine ⟨?_, ?_, ?_⟩
  · intro hscope
    have hp : byIdInReadScope uid t.id t = true := by
      simp [byIdInReadScope, (readScope_eq_true_iff uid t).mpr hscope]
    have hf : store.find? (byIdInReadScope uid t.id) = some t :=
      find_eq_of_unique hu ht hp (fun s hs => by
        simp only [byIdInReadScope, Bool.and_eq_true, decide_eq_true_eq] at hs
        exact hs.1)
    simp [getTask, hf]
  · intro hscope
    have hf : store.find? (byIdInReadScope uid t.id) = none := by
      apply find_none_of_forall
      intro s hs
      by_cases hid : s.id = t.id
      · have hst : s = t := eq_of_mem_of_id_eq hu hs ht hid
        subst hst
        have : readScope uid s = false := by
          rw [readScope_eq_false_iff]
          exact not_or.mp hscope
        simp [byIdInReadScope, this]
      · simp [byIdInReadScope, hid]
    simp [getTask, hf]
  · intro absent habsent
    have hf : store.find? (byIdInReadScope uid absent) = none := by
      apply find_none_of_forall
      intro s hs
      simp [byIdInReadScope, habsent s hs]
    simp [getTask, hf]

/-- The reads of C5 on a store of two tasks: the creator (user 1) and the
assignee (user 2) of task 10 get it, user 3 gets the 404 that the unused id
12 gets as well. -/
theorem getTask_read_scope_witness :
    getTask sampleEnv [sampleTask, otherTask] 1 10
        = .task 200 (populateBoth sampleEnv sampleTask) none ∧
    getTask sampleEnv [sampleTask, otherTask] 2 10
        = .task 200 (populateBoth sampleEnv sampleTask) none ∧
    getTask sampleEnv [sampleTask, otherTask] 3 10 = .message 404 false "Task not found" ∧
    getTask sampleEnv [sampleTask, otherTask] 3 12 = .message 404 false "Task not found" :=
  ⟨(getTask_read_scope sampleEnv [sampleTask, otherTask] 1 sampleTask (by decide)
      (by decide)).1 (Or.inl rfl),
   (getTask_read_scope sampleEnv [sampleTask, otherTask] 2 sampleTask (by decide)
      (by decide)).1 (Or.inr rfl),
   (getTask_read_scope sampleEnv [sampleTask, otherTask] 3 sampleTask (by decide)
      (by decide)).2.1 (by decide),
   (getTask_read_scope sampleEnv [sampleTask, otherTask] 3 sampleTask (by decide)
      (by decide)).2.2 12 (by decide)⟩

theorem eraseP_eq_self_of_forall {p : Task → Bool} {store : Store}
    (h : ∀ t ∈ store, p t = false) : store.eraseP p = store := by
  induction store with
  | nil => rfl
  | cons a as ih =>
    have ha : p a = false := h a (List.mem_cons_self a as)
    simp only [List.eraseP_cons, ha, Bool.false_eq_true, if_false, cond_false]
    rw [ih (fun t ht => h t (List.mem_cons_of_mem a ht))]

theorem eraseP_eq_erase_of_unique {p : Task → Bool} {store : Store} {t : Task}
    (ht : t ∈ store) (hp : p t = true) (hall : ∀ s ∈ store, p s = true → s = t) :
    store.eraseP p = store.erase t := by
  induction store with
  | nil => cases ht
  | cons a as ih =>
    by_cases hat : a = t
    · subst hat
      simp [List.eraseP_cons, hp]
    · have hpa : p a = false := by
        cases hpa : p a with
        | false => rfl
        | true => exact absurd (hall a (List.mem_cons_self a as) hpa) hat
      have ht' : t ∈ as := by
        rcases List.mem_cons.mp ht with h | h
        · exact absurd h.symm hat
        · exact h
      rw [List.eraseP_cons, hpa, List.erase_cons]
      simp only [Bool.false_eq_true, if_false, cond_false, beq_iff_eq, hat]
      rw [ih ht' (fun s hs => hall s (List.mem_cons_of_mem a hs))]

theorem nodup_of_uniqueIds {store : Store} (hu : UniqueIds store) : store.Nodup :=
  List.Nodup.of_map Task.id hu

/-- C6: `deleteTask` on the id of a stored task removes it exactly when the
caller is its creator: then exactly that task leaves the store (every other
task stays as it is) and the response is 200; for any other caller, the
assignee included, and for an id no stored task has, the response is 404 and
the store is unchanged. -/
theorem deleteTask_owner_only (store : Store) (uid : ObjectId) (t : Task)
    (hu : UniqueIds store) (ht : t ∈ store) :
    (t.createdBy = uid →
      deleteTask store uid t.id
        = (.message 200 true "Task deleted successfully", store.erase t) ∧
      ∀ s, s ∈ store.erase t ↔ s ∈ store ∧ s ≠ t) ∧
    (t.createdBy ≠ uid →
      deleteTask store uid t.id = (.message 404 false "Task not found or unauthorized", store)) ∧
    (∀ absent : ObjectId, (∀ s ∈ store, s.id ≠ absent) →
      deleteTask store uid absent
        = (.message 404 false "Task not found or unauthorized", store)) := by
  refine ⟨?_, ?_, ?_⟩
  · intro howner
    have hp : byIdOwned uid t.id t = true := by simp [byIdOwned, howner]
    have hid : ∀ s, byIdOwned uid t.id s = true → s.id = t.id := fun s hs => by
      simp only [byIdOwned, Bool.and_eq_true, decide_eq_true_eq] at hs
      exact hs.1
    have hf : store.find? (byIdOwned uid t.id) = some t := find_eq_of_unique hu ht hp hid
    have he : store.eraseP (byIdOwned uid t.id) = store.erase t :=
      eraseP_eq_erase_of_unique ht hp
        (fun s hs hps => eq_of_mem_of_id_eq hu hs ht (hid s hps))
    refine ⟨by simp [deleteTask, hf, he], ?_⟩
    intro s
    rw [(nodup_of_uniqueIds hu).mem_erase_iff]
    exact and_comm
  · intro hother
    have hf : store.find? (byIdOwned uid t.id) = none := by
      apply find_none_of_forall
      intro s hs
      by_cases hid : s.id = t.id
      · have hst : s = t := eq_of_mem_of_id_eq hu hs ht hid
        subst hst
        simp [byIdOwned, hother]
      · simp [byIdOwned, hid]
    simp [deleteTask, hf]
  · intro absent habsent
    have hf : store.find? (byIdOwned uid absent) = none := by
      apply find_none_of_forall
      intro s hs
      simp [byIdOwned, habsent s hs]
    simp [deleteTask, hf]

/-- The deletes of C6 on a store of two tasks: the creator of task 10 removes
it and task 11 stays; its assignee (user 2) and the unused id 12 get 404 with
the store as it was. -/
theorem deleteTask_owner_only_witness :
    deleteTask [sampleTask, otherTask] 1 10
        = (.message 200 true "Task deleted successfully", [otherTask]) ∧
    deleteTask [sampleTask, otherTask] 2 10
        = (.message 404 false "Task not found or unauthorized", [sampleTask, otherTask]) ∧
    deleteTask [sampleTask, otherTask] 1 12
        = (.message 404 false "Task not found or unauthorized", [sampleTask, otherTask]) :=
  ⟨((deleteTask_owner_only [sampleTask, otherTask] 1 sampleTask (by decide)
      (by decide)).1 rfl).1,
   (deleteTask_owner_only [sampleTask, otherTask] 2 sampleTask (by decide)
      (by decide)).2.1 (by decide),
   (deleteTask_owner_only [sampleTask, otherTask] 1 sampleTask (by decide)
      (by decide)).2.2 12 (by decide)⟩

/-! ## Creation -/

theorem resolveAssigneeCreate_createdBy (env : Env) (b d : TaskBody) :
    (resolveAssigneeCreate env b d).createdBy = d.createdBy := by
  unfold resolveAssigneeCreate
  split
  · rfl
  · split
    · rfl
    · split <;> rfl

theorem resolveAssigneeCreate_status (env : Env) (b d : TaskBody) :
    (resolveAssigneeCreate env b d).status = d.status := by
  unfold resolveAssigneeCreate
  split
  · rfl
  · split
    · rfl
    · split <;> rfl

theorem resolveAssigneeCreate_completedAt (env : Env) (b d : TaskBody) :
    (resolveAssigneeCreate env b d).completedAt = d.completedAt := by
  unfold resolveAssigneeCreate
  split
  · rfl
  · split
    · rfl
    · split <;> rfl

theorem newDocument_fields {env : Env} {d : TaskBody} {doc : Task}
    (h : newDocument env d = .ok doc) :
    d.createdBy = some doc.createdBy ∧ doc.status = d.status.getD "pending" ∧
      doc.completedAt = d.completedAt.join := by
  unfold newDocument at h
  split at h
  · cases h
  · split at h
    · cases h
    · injection h with h
      subst h
      simp_all

theorem preSave_createdBy (now : Timestamp) (m : Bool) (doc : Task) :
    (preSave now m doc).createdBy = doc.createdBy := by
  unfold preSave
  split
  · split
    · rfl
    · split <;> rfl
  · rfl

theorem preSave_status (now : Timestamp) (m : Bool) (doc : Task) :
    (preSave now m doc).status = doc.status := by
  unfold preSave
  split
  · split
    · rfl
    · split <;> rfl
  · rfl

/-- What `createTask` answers and stores, case by case. -/
theorem createTask_cases (env : Env) (store : Store) (uid : ObjectId) (body : TaskBody) :
    ((∃ e, (createTask env store uid body).1 = .validationFailed e) ∨
      (∃ e, (createTask env store uid body).1 = .failed e)) ∧
        (createTask env store uid body).2 = store ∨
    ∃ doc, validateTask env body = [] ∧
      newDocument env
        (resolveAssigneeCreate env (sanitizeBody env body)
          { sanitizeBody env body with createdBy := some uid }) = .ok doc ∧
      createTask env store uid body =
        (.task 201
          (populateBoth env (preSave env.now
            (resolveAssigneeCreate env (sanitizeBody env body)
              { sanitizeBody env body with createdBy := some uid }).status.isSome doc))
          (some "Task created successfully"),
         store ++ [preSave env.now
            (resolveAssigneeCreate env (sanitizeBody env body)
              { sanitizeBody env body with createdBy := some uid }).status.isSome doc]) := by
  unfold createTask
  by_cases hv : validateTask env body = []
  · simp only [hv, ne_eq, not_true_eq_false, if_false]
    cases hd : newDocument env
        (resolveAssigneeCreate env (sanitizeBody env body)
          { sanitizeBody env body with createdBy := some uid }) with
    | error e => exact Or.inl ⟨Or.inr ⟨e, rfl⟩, rfl⟩
    | ok doc =>
      by_cases hs : schemaErrors env.now true doc doc = []
      · exact Or.inr ⟨doc, trivial, rfl, by simp [hs]⟩
      · exact Or.inl ⟨Or.inr ⟨.validation (schemaErrors env.now true doc doc), by simp [hs]⟩,
          by simp [hs]⟩
  · exact Or.inl ⟨Or.inl ⟨validateTask env body, by simp [hv]⟩, by simp [hv]⟩

/-- C7: whatever the body of `createTask` carries, a `createdBy` key included,
a task it creates has `createdBy` equal to the authenticated user: when the
response carries a task, that task is the one appended to the store and its
creator is the caller; otherwise nothing is stored. -/
theorem createTask_creator_is_caller (env : Env) (store : Store) (uid : ObjectId)
    (body : TaskBody) :
    (∀ code p msg, (createTask env store uid body).1 = .task code p msg →
      p.doc.createdBy = uid ∧ (createTask env store uid body).2 = store ++ [p.doc]) ∧
    ((∀ code p msg, (createTask env store uid body).1 ≠ .task code p msg) →
      (createTask env store uid body).2 = store) := by
  rcases createTask_cases env store uid body with ⟨hresp, hstore⟩ | ⟨doc, _, hdoc, hrun⟩
  · refine ⟨?_, fun _ => hstore⟩
    intro code p msg h
    rcases hresp with ⟨e, he⟩ | ⟨e, he⟩ <;> rw [he] at h <;> cases h
  · refine ⟨?_, ?_⟩
    · intro code p msg h
      rw [hrun] at h ⊢
      injection h with _ hp _
      subst hp
      refine ⟨?_, rfl⟩
      have hc := (newDocument_fields hdoc).1
      rw [resolveAssigneeCreate_createdBy] at hc
      simp only [populateBoth, preSave_createdBy]
      exact (Option.some.inj hc).symm
    · intro hno
      rw [hrun] at hno
      exact absurd rfl (hno _ _ _)

/-- The creation of C7 by user 1 with a body whose `createdBy` key names user
7: the task is created and belongs to user 1. -/
theorem createTask_creator_is_caller_witness :
    (createTask sampleEnv [] 1 spoofBody).1
        = .task 201 (populateBoth sampleEnv
            { sampleTask with id := 99, title := "x", assignee := none, createdAt := 1000,
                              updatedAt := 1000 })
          (some "Task created successfully") ∧
    (populateBoth sampleEnv
        { sampleTask with id := 99, title := "x", assignee := none, createdAt := 1000,
                          updatedAt := 1000 }).doc.createdBy = 1 ∧
    (createTask sampleEnv [] 1 spoofBody).2
        = [] ++ [(populateBoth sampleEnv
            { sampleTask with id := 99, title := "x", assignee := none, createdAt := 1000,
                              updatedAt := 1000 }).doc] :=
  ⟨by decide,
   (createTask_creator_is_caller sampleEnv [] 1 spoofBody).1 201
      (populateBoth sampleEnv
        { sampleTask with id := 99, title := "x", assignee := none, createdAt := 1000,
                          updatedAt := 1000 })
      (some "Task created successfully") (by decide)⟩

/-! ## Single-task updates -/

theorem resolveAssigneeUpdate_fields (env : Env) (b : TaskBody) :
    (resolveAssigneeUpdate env b).completedAt = b.completedAt ∧
      (resolveAssigneeUpdate env b).status = b.status ∧
      (resolveAssigneeUpdate env b).createdBy = b.createdBy := by
  unfold resolveAssigneeUpdate
  split
  · exact ⟨rfl, rfl, rfl⟩
  · split
    · exact ⟨rfl, rfl, rfl⟩
    · split <;> exact ⟨rfl, rfl, rfl⟩

theorem assignBody_fields {env : Env} {b : TaskBody} {t doc : Task}
    (h : assignBody env b t = .ok doc) :
    doc.id = t.id ∧ doc.status = b.status.getD t.status ∧
      doc.createdBy = b.createdBy.getD t.createdBy ∧
      (b.completedAt = none → doc.completedAt = t.completedAt) := by
  unfold assignBody at h
  split at h
  · cases h
  · injection h with h
    subst h
    refine ⟨rfl, rfl, rfl, ?_⟩
    intro hc
    simp only [hc]

theorem stampUpdate_fields (now : Timestamp) (old doc : Task) :
    (stampUpdate now old doc).id = doc.id ∧ (stampUpdate now old doc).status = doc.status ∧
      (stampUpdate now old doc).completedAt = doc.completedAt ∧
      (stampUpdate now old doc).createdBy = doc.createdBy := by
  unfold stampUpdate
  split <;> exact ⟨rfl, rfl, rfl, rfl⟩

/-- What `updateTask` answers and stores, case by case. -/
theorem updateTask_cases (env : Env) (store : Store) (uid id : ObjectId) (body : TaskBody) :
    (validateTask env body ≠ [] ∧
      updateTask env store uid id body = (.validationFailed (validateTask env body), store)) ∨
    (validateTask env body = [] ∧ store.find? (byIdInReadScope uid id) = none ∧
      updateTask env store uid id body = (.message 404 false "Task not found", store)) ∨
    ∃ t, validateTask env body = [] ∧ store.find? (byIdInReadScope uid id) = some t ∧
      ((∃ e, updateTask env store uid id body = (.failed e, store)) ∨
       ∃ doc, assignBody env (resolveAssigneeUpdate env (sanitizeBody env body)) t = .ok doc ∧
        updateTask env store uid id body =
          (.task 200
            (populateBoth env
              (preSave env.now (decide (doc.status ≠ t.status)) (stampUpdate env.now t doc)))
            (some "Task updated successfully"),
           replaceDoc
            (preSave env.now (decide (doc.status ≠ t.status)) (stampUpdate env.now t doc))
            store)) := by
  unfold updateTask
  by_cases hv : validateTask env body = []
  · simp only [hv, ne_eq, not_true_eq_false, if_false]
    cases hf : store.find? (byIdInReadScope uid id) with
    | none => exact Or.inr (Or.inl ⟨trivial, rfl, rfl⟩)
    | some t =>
      refine Or.inr (Or.inr ⟨t, trivial, rfl, ?_⟩)
      cases hd : assignBody env (resolveAssigneeUpdate env (sanitizeBody env body)) t with
      | error e => exact Or.inl ⟨e, by simp [hd]⟩
      | ok doc =>
        by_cases hs : schemaErrors env.now false t doc = []
        · exact Or.inr ⟨doc, rfl, by simp [hd, hs]⟩
        · exact Or.inl ⟨.validation (schemaErrors env.now false t doc), by simp [hd, hs]⟩
  · exact Or.inl ⟨hv, by simp [hv]⟩

/-- C1, as the code has it: a user who is neither the creator nor the assignee
of a stored task cannot change it through `updateTask`.  For every request
body the store is left as it was; the response is 404 when the body passes
`validateTask` and the 400 of the validation otherwise. -/
theorem updateTask_outside_read_scope (env : Env) (store : Store) (uid : ObjectId)
    (t : Task) (body : TaskBody) (hu : UniqueIds store) (ht : t ∈ store)
    (hc : t.createdBy ≠ uid) (ha : t.assignee ≠ some uid) :
    (updateTask env store uid t.id body).2 = store ∧
    (validateTask env body = [] →
      (updateTask env store uid t.id body).1 = .message 404 false "Task not found") ∧
    (validateTask env body ≠ [] →
      (updateTask env store uid t.id body).1
        = .validationFailed (validateTask env body)) := by
  have hf : store.find? (byIdInReadScope uid t.id) = none := by
    apply find_none_of_forall
    intro s hs
    by_cases hid : s.id = t.id
    · have hst : s = t := eq_of_mem_of_id_eq hu hs ht hid
      subst hst
      have : readScope uid s = false := (readScope_eq_false_iff uid s).mpr ⟨hc, ha⟩
      simp [byIdInReadScope, this]
    · simp [byIdInReadScope, hid]
  rcases updateTask_cases env store uid t.id body with ⟨hv, hrun⟩ | ⟨hv, _, hrun⟩ |
    ⟨s, _, hs, _⟩
  · rw [hrun]
    exact ⟨rfl, fun h => absurd h hv, fun _ => rfl⟩
  · rw [hrun]
    exact ⟨rfl, fun _ => rfl, fun h => absurd hv h⟩
  · rw [hf] at hs
    cases hs

/-- The updates of C1 by user 3, who neither created task 10 nor is assigned
to it: a valid body gets 404, a body without title gets 400, and the store
stays as it was. -/
theorem updateTask_outside_read_scope_witness :
    (updateTask sampleEnv [sampleTask, otherTask] 3 10 renameBody).2
        = [sampleTask, otherTask] ∧
    (updateTask sampleEnv [sampleTask, otherTask] 3 10 renameBody).1
        = .message 404 false "Task not found" ∧
    (updateTask sampleEnv [sampleTask, otherTask] 3 10 TaskBody.empty).1
        = .validationFailed (validateTask sampleEnv TaskBody.empty) :=
  ⟨(updateTask_outside_read_scope sampleEnv [sampleTask, otherTask] 3 sampleTask renameBody
      (by decide) (by decide) (by decide) (by decide)).1,
   (updateTask_outside_read_scope sampleEnv [sampleTask, otherTask] 3 sampleTask renameBody
      (by decide) (by decide) (by decide) (by decide)).2.1 (by decide),
   (updateTask_outside_read_scope sampleEnv [sampleTask, otherTask] 3 sampleTask
      TaskBody.empty (by decide) (by decide) (by decide) (by decide)).2.2 (by decide)⟩

/-- C1 as stated fails twice.  User 2 is not the creator of task 10 but its
assignee: the update is answered 200 and the stored task is renamed.  And
user 3, a stranger, sending a body without title is answered 400, not 404. -/
theorem updateTask_creator_only_counterexample :
    (2 : ObjectId) ≠ sampleTask.createdBy ∧
    (updateTask sampleEnv [sampleTask, otherTask] 2 10 renameBody).1
        = .task 200 (populateBoth sampleEnv { sampleTask with title := "x", updatedAt := 1000 })
            (some "Task updated successfully") ∧
    (updateTask sampleEnv [sampleTask, otherTask] 2 10 renameBody).2
        = [{ sampleTask with title := "x", updatedAt := 1000 }, otherTask] ∧
    (3 : ObjectId) ≠ sampleTask.createdBy ∧
    (updateTask sampleEnv [sampleTask, otherTask] 3 10 TaskBody.empty).1
        = .validationFailed
            ["Invalid value", "Title is required and must be less than 100 characters"] := by
  decide

/-- C2 on the code: a body or a bulk payload that carries a `createdBy` key
rewrites the creator.  Task 10 of user 1 belongs to user 7 after an update by
its creator, after an update by its assignee (user 2), and after a bulk
update. -/
theorem createdBy_overwritten :
    validateTask sampleEnv spoofBody = [] ∧
    (updateTask sampleEnv [sampleTask] 1 10 spoofBody).2.map Task.createdBy = [7] ∧
    (updateTask sampleEnv [sampleTask] 2 10 spoofBody).2.map Task.createdBy = [7] ∧
    (bulkUpdateTasks sampleEnv [sampleTask] 1 (.array [10]) spoofUpdates).2.map Task.createdBy
        = [7] := by
  decide

theorem preSave_modified_invariant (now : Timestamp) (doc : Task) :
    (preSave now true doc).completedAt ≠ none ↔ (preSave now true doc).status = "completed" := by
  unfold preSave
  by_cases hs : doc.status = "completed"
  · by_cases hc : doc.completedAt = none
    · simp [hs, hc]
    · simp [hs, hc]
  · simp [hs]

theorem preSave_unmodified (now : Timestamp) (doc : Task) : preSave now false doc = doc := by
  simp [preSave]

/-- C3, as the code has it, for bodies without a `completedAt` key.  A task
that `createTask` stores has `completedAt` set iff its status is completed.  A
task that `updateTask` stores has `completedAt` set iff its status is
completed when the update changed the status, and has the `completedAt` it
had before when the update left the status as it was. -/
theorem completedAt_tracks_status (env : Env) (store : Store) (uid id : ObjectId)
    (body : TaskBody) (hkey : body.completedAt = none) :
    (∀ code p msg, (createTask env store uid body).1 = .task code p msg →
      (createTask env store uid body).2 = store ++ [p.doc] ∧
      (p.doc.completedAt ≠ none ↔ p.doc.status = "completed")) ∧
    (∀ t code p msg, store.find? (byIdInReadScope uid id) = some t →
      (updateTask env store uid id body).1 = .task code p msg →
      (updateTask env store uid id body).2 = replaceDoc p.doc store ∧
      (p.doc.status ≠ t.status → (p.doc.completedAt ≠ none ↔ p.doc.status = "completed")) ∧
      (p.doc.status = t.status → p.doc.completedAt = t.completedAt)) := by
  refine ⟨?_, ?_⟩
  · intro code p msg h
    rcases createTask_cases env store uid body with ⟨hresp, _⟩ | ⟨doc, _, hdoc, hrun⟩
    · rcases hresp with ⟨e, he⟩ | ⟨e, he⟩ <;> rw [he] at h <;> cases h
    · rw [hrun] at h ⊢
      injection h with _ hp _
      subst hp
      refine ⟨rfl, ?_⟩
      obtain ⟨_, hst, hca⟩ := newDocument_fields hdoc
      rw [resolveAssigneeCreate_status] at hst
      rw [resolveAssigneeCreate_completedAt] at hca
      rw [resolveAssigneeCreate_status]
      have hst2 : doc.status = body.status.getD "pending" := hst
      have hca2 : doc.completedAt = none := by
        have : doc.completedAt = body.completedAt.join := hca
        rw [this, hkey]
        rfl
      show (preSave env.now body.status.isSome doc).completedAt ≠ none ↔
        (preSave env.now body.status.isSome doc).status = "completed"
      cases hb : body.status with
      | none =>
        rw [hb] at hst2
        have hp : doc.status = "pending" := hst2
        simp only [Option.isSome_none, preSave_unmodified, hca2, hp]
        decide
      | some v =>
        simp only [Option.isSome_some]
        exact preSave_modified_invariant env.now doc
  · intro t code p msg hfind h
    rcases updateTask_cases env store uid id body with ⟨_, hrun⟩ | ⟨_, _, hrun⟩ |
      ⟨s, _, hs, hrest⟩
    · rw [hrun] at h
      cases h
    · rw [hrun] at h
      cases h
    · rw [hfind] at hs
      cases hs
      rcases hrest with ⟨e, hrun⟩ | ⟨doc, hdoc, hrun⟩
      · rw [hrun] at h
        cases h
      · rw [hrun] at h ⊢
        injection h with _ hp _
        subst hp
        obtain ⟨_, _, _, hca⟩ := assignBody_fields hdoc
        have hca2 : doc.completedAt = t.completedAt :=
          hca (by rw [(resolveAssigneeUpdate_fields env _).1]; exact hkey)
        have hstat : (preSave env.now (decide (doc.status ≠ t.status))
            (stampUpdate env.now t doc)).status = doc.status := by
          rw [preSave_status, (stampUpdate_fields env.now t doc).2.1]
        refine ⟨rfl, ?_, ?_⟩
        · intro hne
          simp only [populateBoth] at hne ⊢
          rw [hstat] at hne
          have hd : decide (doc.status ≠ t.status) = true := by simpa using hne
          rw [hd]
          exact preSave_modified_invariant env.now _
        · intro heq
          simp only [populateBoth] at heq ⊢
          rw [hstat] at heq
          have hd : decide (doc.status ≠ t.status) = false := by simpa using heq
          rw [hd, preSave_unmodified, (stampUpdate_fields env.now t doc).2.2.1, hca2]

/-- The saves of C3 with the body `{title: 'x', status: 'completed'}`, which
has no `completedAt` key: the created task and the updated task 10 are both
completed with `completedAt` stamped 1000. -/
theorem completedAt_tracks_status_witness :
    completeBody.completedAt = none ∧
    (createTask sampleEnv [sampleTask] 1 completeBody).2
        = [sampleTask] ++ [(populateBoth sampleEnv
            { sampleTask with id := 99, title := "x", status := "completed", assignee := none,
                              completedAt := some 1000, createdAt := 1000,
                              updatedAt := 1000 }).doc] ∧
    (updateTask sampleEnv [sampleTask] 1 10 completeBody).2
        = replaceDoc (populateBoth sampleEnv
            { sampleTask with title := "x", status := "completed", completedAt := some 1000,
                              updatedAt := 1000 }).doc [sampleTask] :=
  ⟨rfl,
   ((completedAt_tracks_status sampleEnv [sampleTask] 1 10 completeBody rfl).1 201
      (populateBoth sampleEnv
        { sampleTask with id := 99, title := "x", status := "completed", assignee := none,
                          completedAt := some 1000, createdAt := 1000, updatedAt := 1000 })
      (some "Task created successfully") (by decide)).1,
   ((completedAt_tracks_status sampleEnv [sampleTask] 1 10 completeBody rfl).2 sampleTask 200
      (populateBoth sampleEnv
        { sampleTask with title := "x", status := "completed", completedAt := some 1000,
                          updatedAt := 1000 })
      (some "Task updated successfully") (by decide) (by decide)).1⟩

/-- C3 as stated fails in three runs.  An update whose body carries a
`completedAt` key and leaves the status alone stores a pending task with
`completedAt` set; so does a creation with such a body.  And a task that a
bulk update completed (it has no `completedAt`) stays completed without
`completedAt` after an update that only renames it. -/
theorem completedAt_iff_completed_counterexample :
    validateTask sampleEnv stampBody = [] ∧
    (updateTask sampleEnv [sampleTask] 1 10 stampBody).2
        = [{ sampleTask with title := "x", completedAt := some 5, updatedAt := 1000 }] ∧
    (createTask sampleEnv [] 1 stampBody).2
        = [{ sampleTask with id := 99, title := "x", assignee := none, completedAt := some 5,
                             createdAt := 1000, updatedAt := 1000 }] ∧
    (bulkUpdateTasks sampleEnv [sampleTask] 1 (.array [10]) completeUpdates).2
        = [{ sampleTask with status := "completed", updatedAt := 1000 }] ∧
    validateTask sampleEnv renameBody = [] ∧
    (updateTask sampleEnv [{ sampleTask with status := "completed", updatedAt := 1000 }] 1 10
        renameBody).2
        = [{ sampleTask with title := "x", status := "completed", completedAt := none,
                             updatedAt := 1000 }] := by
  decide

/-! ## Statistics -/

theorem readScope_eq_decide (uid : ObjectId) :
    readScope uid = fun t => decide (t.createdBy = uid ∨ t.assignee = some uid) := by
  funext t
  simp [readScope]

theorem countP_filter_readScope (uid : ObjectId) (store : Store) (p : Task → Bool) :
    (store.filter (readScope uid)).countP p
      = store.countP (fun t => decide (t.createdBy = uid ∨ t.assignee = some uid) && p t) := by
  rw [List.countP_filter, readScope_eq_decide]
  congr 1
  funext t
  exact Bool.and_comm _ _

/-- The counts of the payload of `getTaskStats`, whether or not a task is in
scope. -/
theorem taskStats_fields (now : Timestamp) (store : Store) (uid : ObjectId) :
    (taskStats now store uid).total = (store.filter (readScope uid)).length ∧
    (taskStats now store uid).completed
      = (store.filter (readScope uid)).countP (fun t => decide (t.status = "completed")) ∧
    (taskStats now store uid).pending
      = (store.filter (readScope uid)).countP (fun t => decide (t.status = "pending")) ∧
    (taskStats now store uid).inProgress
      = (store.filter (readScope uid)).countP (fun t => decide (t.status = "in-progress")) ∧
    (taskStats now store uid).highPriority
      = (store.filter (readScope uid)).countP (fun t => decide (t.priority = "high")) ∧
    (taskStats now store uid).overdue
      = (store.filter (readScope uid)).countP (overdueCond now) := by
  unfold taskStats groupStats
  by_cases h : store.filter (readScope uid) = []
  · simp [h]
  · simp [h]

/-- C9: the payload of `getTaskStats` counts the tasks the caller created or is
assigned to, each once: `total` is their number, `completed`, `pending` and
`inProgress` the numbers of those with that status, `highPriority` the number
of those with priority high; when no task is in scope every count and the
completion rate are 0. -/
theorem getTaskStats_counts (env : Env) (store : Store) (uid : ObjectId) :
    ∃ st, getTaskStats env store uid = .stats st ∧
      st.total = store.countP (fun t => decide (t.createdBy = uid ∨ t.assignee = some uid)) ∧
      st.completed = store.countP (fun t =>
        decide (t.createdBy = uid ∨ t.assignee = some uid) && decide (t.status = "completed")) ∧
      st.pending = store.countP (fun t =>
        decide (t.createdBy = uid ∨ t.assignee = some uid) && decide (t.status = "pending")) ∧
      st.inProgress = store.countP (fun t =>
        decide (t.createdBy = uid ∨ t.assignee = some uid) &&
          decide (t.status = "in-progress")) ∧
      st.highPriority = store.countP (fun t =>
        decide (t.createdBy = uid ∨ t.assignee = some uid) && decide (t.priority = "high")) ∧
      (store.countP (fun t => decide (t.createdBy = uid ∨ t.assignee = some uid)) = 0 →
        st = { total := 0, completed := 0, pending := 0, inProgress := 0, overdue := 0,
               highPriority := 0, completionRate := 0 }) := by
  refine ⟨taskStats env.now store uid, rfl, ?_⟩
  obtain ⟨h1, h2, h3, h4, h5, _⟩ := taskStats_fields env.now store uid
  have hlen : (store.filter (readScope uid)).length
      = store.countP (fun t => decide (t.createdBy = uid ∨ t.assignee = some uid)) := by
    rw [List.countP_eq_length_filter, readScope_eq_decide]
  refine ⟨h1.trans hlen, ?_, ?_, ?_, ?_, ?_⟩
  · rw [h2, countP_filter_readScope]
  · rw [h3, countP_filter_readScope]
  · rw [h4, countP_filter_readScope]
  · rw [h5, countP_filter_readScope]
  · intro hzero
    have hnil : store.filter (readScope uid) = [] :=
      List.length_eq_zero.mp (hlen.trans hzero)
    simp [taskStats, groupStats, hnil, completionRate]

/-- The statistics of C9 for user 1 over the four tasks of the route test
(total 4, completed 1, pending 2, in progress 1, none of high priority), and
the all-zero payload for user 5, who has no task. -/
theorem getTaskStats_counts_witness :
    (taskStats statsNow statsStore 1).total = 4 ∧
    (taskStats statsNow statsStore 1).completed = 1 ∧
    (taskStats statsNow statsStore 1).pending = 2 ∧
    (taskStats statsNow statsStore 1).inProgress = 1 ∧
    (taskStats statsNow statsStore 1).highPriority = 0 ∧
    (∃ st, getTaskStats sampleEnv statsStore 5 = .stats st ∧
      st = { total := 0, completed := 0, pending := 0, inProgress := 0, overdue := 0,
             highPriority := 0, completionRate := 0 }) :=
  ⟨by decide, by decide, by decide, by decide, by decide,
   (getTaskStats_counts sampleEnv statsStore 5).elim
     (fun st h => ⟨st, h.1, h.2.2.2.2.2.2 (by decide)⟩)⟩

/-- The `overdue` accumulator counts an in-scope task that is not completed
when its `dueDate` is absent or lies before the current time. -/
theorem taskStats_overdue (now : Timestamp) (store : Store) (uid : ObjectId) :
    (taskStats now store uid).overdue = store.countP (fun t =>
      decide (t.createdBy = uid ∨ t.assignee = some uid) && (decide (t.status ≠ "completed") &&
        (match t.dueDate with
          | .missing => true
          | .null => false
          | .value d => decide (d < now)))) := by
  rw [(taskStats_fields now store uid).2.2.2.2.2, countP_filter_readScope]
  congr 1
  funext t
  congr 1
  unfold overdueCond dueBefore dueNotNull
  cases t.dueDate <;> simp

/-- C10 on the code, with the four tasks of the route test: the tasks without
a due date that are not completed are counted as overdue, so `overdue` is 3
where the specification (and the test) count 1; a single pending task without
a due date already gives 1 instead of 0. -/
theorem overdue_counts_tasks_without_dueDate :
    (taskStats statsNow statsStore 1).overdue = 3 ∧
    overdueBySpec statsNow statsStore 1 = 1 ∧
    (taskStats statsNow [sampleTask] 1).overdue = 1 ∧
    overdueBySpec statsNow [sampleTask] 1 = 0 := by
  decide

/-! ## Listing -/

theorem compileFilter_createdBy {env : Env} {f : TaskFilter} {m : Task → Bool}
    (h : compileFilter env f = .ok m) (t : Task) (ht : m t = true) :
    t.createdBy = f.createdBy := by
  unfold compileFilter at h
  split at h
  · cases h
  · split at h
    · cases h
    · split at h
      · cases h
      · cases h
      · injection h with h
        subst h
        simp only [Bool.and_eq_true, decide_eq_true_eq] at ht
        exact ht.1.1.1.1.1

theorem mem_sortTasks {sortBy : String} {ascending : Bool} {ts : List Task} {t : Task}
    (h : t ∈ sortTasks sortBy ascending ts) : t ∈ ts := by
  unfold sortTasks at h
  split at h
  · exact (List.mem_insertionSort _).mp h
  · exact (List.mem_insertionSort _).mp h

theorem mem_applyLimit {n : Int} {ts : List Task} {t : Task} (h : t ∈ applyLimit n ts) :
    t ∈ ts := by
  unfold applyLimit at h
  split at h
  · exact h
  · exact List.mem_of_mem_take h

/-- C4: whatever the query parameters, a listing that `getTasks` returns for
the user `uid` is drawn from the stored tasks that the built filter matches,
all of which have `createdBy == uid`; `totalCount` is the number of the stored
tasks that filter matches, so it counts tasks of `uid` only; and a stored task
that `uid` did not create (one that is merely assigned to `uid`, say) is not
in the listing. -/
theorem getTasks_listing_scope (env : Env) (store : Store) (uid : ObjectId) (q : ListQuery)
    (tasks : List Populated) (pg : Pagination)
    (h : getTasks env store uid q = .list tasks pg) :
    (∀ p ∈ tasks, p.doc ∈ store ∧ p.doc.createdBy = uid) ∧
    (∃ matching : Task → Bool,
      compileFilter env (buildFilter env uid q) = .ok matching ∧
      (∀ t, matching t = true → t.createdBy = uid) ∧
      pg.totalCount = store.countP matching ∧
      pg.count = tasks.length ∧
      ∀ p ∈ tasks, matching p.doc = true) ∧
    pg.totalCount ≤ store.countP (fun t => decide (t.createdBy = uid)) ∧
    (∀ t ∈ store, t.createdBy ≠ uid → ∀ p ∈ tasks, p.doc ≠ t) := by
  unfold getTasks at h
  simp only at h
  split at h
  · split at h
    · cases h
    · split at h
      · cases h
      · rename_i matching hm
        injection h with htasks hpg
        have hown : ∀ t, matching t = true → t.createdBy = uid :=
          fun t ht => compileFilter_createdBy hm t ht
        have hmem : ∀ p ∈ tasks, p.doc ∈ store.filter matching := by
          intro p hp
          rw [← htasks] at hp
          obtain ⟨t, ht, rfl⟩ := List.mem_map.mp hp
          exact mem_sortTasks (List.mem_of_mem_drop (mem_applyLimit ht))
        have hdoc : ∀ p ∈ tasks, p.doc ∈ store ∧ matching p.doc = true :=
          fun p hp => List.mem_filter.mp (hmem p hp)
        have htotal : pg.totalCount = store.countP matching := by
          rw [← hpg, List.countP_eq_length_filter]
        refine ⟨fun p hp => ⟨(hdoc p hp).1, hown _ (hdoc p hp).2⟩,
          ⟨matching, hm, hown, htotal, ?_, fun p hp => (hdoc p hp).2⟩, ?_, ?_⟩
        · rw [← hpg, ← htasks, List.length_map]
        · rw [htotal]
          apply List.countP_mono_left
          intro t _ ht
          simpa using hown t ht
        · intro t _ hne p hp heq
          exact hne (heq ▸ hown _ (hdoc p hp).2)
  · cases h
  · cases h

/-- The listing of C4 for user 1 with no query parameter, over task 10 (of
user 1), task 11 (of user 3) and task 12 (of user 3, assigned to user 1):
only task 10 is listed and counted. -/
theorem getTasks_listing_scope_witness :
    getTasks sampleEnv [sampleTask, otherTask, assignedTask] 1 ListQuery.empty
        = .list [populateAssignee sampleEnv sampleTask]
            { current := 1, total := some 1, count := 1, totalCount := 1 } ∧
    (∀ p ∈ [populateAssignee sampleEnv sampleTask],
      p.doc ∈ [sampleTask, otherTask, assignedTask] ∧ p.doc.createdBy = 1) ∧
    (∀ t ∈ [sampleTask, otherTask, assignedTask], t.createdBy ≠ 1 →
      ∀ p ∈ [populateAssignee sampleEnv sampleTask], p.doc ≠ t) :=
  ⟨by decide,
   (getTasks_listing_scope sampleEnv [sampleTask, otherTask, assignedTask] 1 ListQuery.empty
      [populateAssignee sampleEnv sampleTask]
      { current := 1, total := some 1, count := 1, totalCount := 1 } (by decide)).1,
   (getTasks_listing_scope sampleEnv [sampleTask, otherTask, assignedTask] 1 ListQuery.empty
      [populateAssignee sampleEnv sampleTask]
      { current := 1, total := some 1, count := 1, totalCount := 1 } (by decide)).2.2.2⟩

/-! ## The completion rate -/

/-- The completion rate of the payload is `completionRate` of its own
`completed` and `total`. -/
theorem taskStats_completionRate (now : Timestamp) (store : Store) (uid : ObjectId) :
    (taskStats now store uid).completionRate
      = completionRate (taskStats now store uid).completed (taskStats now store uid).total := by
  unfold taskStats
  rfl

/-- With no task in scope the rate is the number 0. -/
theorem completionRate_zero_total (completed : Nat) : completionRate completed 0 = 0 := by
  simp [completionRate]

/-- C11 on the code: the quotient `completed / total` is rounded to a double
before it is multiplied by 100, so a rate that is exactly a half can come out
below it.  With 23 of 40 tasks completed the product is 57.49999999999999 and
the rate is 57, where rounding 57.5 half up gives 58.  The examples of the
claim (1 of 4, 1 of 8) and the rate 0 for no task do hold. -/
theorem completionRate_half_rounds_down :
    (taskStats statsNow fortyStore 1).total = 40 ∧
    (taskStats statsNow fortyStore 1).completed = 23 ∧
    (taskStats statsNow fortyStore 1).completionRate = 57 ∧
    completionRateBySpec 23 40 = 58 ∧
    toDouble { num := (toDouble { num := 23, den := 40 }).num * 100,
               den := (toDouble { num := 23, den := 40 }).den }
      = { num := 8092405580431359, den := 140737488355328 } ∧
    completionRate 1 4 = 25 ∧ completionRate 1 8 = 13 ∧
    (taskStats statsNow [] 1).completionRate = 0 := by
  decide

/-! ## Pagination -/

/-- The response of `getTasks` once page, limit and filter are known. -/
theorem getTasks_of_params {env : Env} {store : Store} {uid : ObjectId} {q : ListQuery}
    {p l : Int} {matching : Task → Bool} (hp : pageParam q = some p)
    (hl : limitParam q = some l) (hskip : 0 ≤ (p - 1) * l)
    (hm : compileFilter env (buildFilter env uid q) = .ok matching) :
    getTasks env store uid q =
      .list ((fetchPage store q matching p l).map (populateAssignee env))
        { current := p
          total := if l = 0 then none else some (ceilDiv (store.filter matching).length l)
          count := (fetchPage store q matching p l).length
          totalCount := (store.filter matching).length } := by
  unfold pageParam at hp
  unfold limitParam at hl
  unfold getTasks
  simp only [hp, hl, hm, fetchPage, not_lt.mpr hskip, if_false]

/-- A listing that `getTasks` returns comes from a page, a limit and a
compiled filter. -/
theorem getTasks_list_inv {env : Env} {store : Store} {uid : ObjectId} {q : ListQuery}
    {tasks : List Populated} {pg : Pagination}
    (h : getTasks env store uid q = .list tasks pg) :
    ∃ p l matching, pageParam q = some p ∧ limitParam q = some l ∧ 0 ≤ (p - 1) * l ∧
      compileFilter env (buildFilter env uid q) = .ok matching ∧
      tasks = (fetchPage store q matching p l).map (populateAssignee env) ∧
      pg = { current := p
             total := if l = 0 then none else some (ceilDiv (store.filter matching).length l)
             count := (fetchPage store q matching p l).length
             totalCount := (store.filter matching).length } := by
  cases hp : pageParam q with
  | none =>
    unfold pageParam at hp
    unfold getTasks at h
    simp only [hp] at h
    cases h
  | some p =>
    cases hl : limitParam q with
    | none =>
      have hp2 := hp
      have hl2 := hl
      unfold pageParam at hp2
      unfold limitParam at hl2
      unfold getTasks at h
      simp only [hp2, hl2] at h
      cases h
    | some l =>
      by_cases hskip : 0 ≤ (p - 1) * l
      · cases hm : compileFilter env (buildFilter env uid q) with
        | error e =>
          have hp2 := hp
          have hl2 := hl
          unfold pageParam at hp2
          unfold limitParam at hl2
          unfold getTasks at h
          simp only [hp2, hl2, hm, not_lt.mpr hskip, if_false] at h
          cases h
        | ok matching =>
          rw [getTasks_of_params hp hl hskip hm] at h
          injection h with h1 h2
          exact ⟨p, l, matching, rfl, rfl, hskip, rfl, h1.symm, h2.symm⟩
      · have hp2 := hp
        have hl2 := hl
        unfold pageParam at hp2
        unfold limitParam at hl2
        unfold getTasks at h
        simp only [hp2, hl2, lt_of_not_ge hskip, if_true] at h
        cases h

theorem length_sortTasks (sortBy : String) (ascending : Bool) (ts : List Task) :
    (sortTasks sortBy ascending ts).length = ts.length := by
  unfold sortTasks
  split <;> exact List.length_insertionSort _ _

/-- C12: when the filter of the request matches `N` stored tasks and the
request asks for page `p ≥ 1` with limit `L ≥ 1`, `getTasks` answers with the
sorted matching tasks after the first `(p - 1) * L`, cut to `L`: exactly
`min(L, max(0, N - (p - 1) * L))` tasks. -/
theorem getTasks_page_length (env : Env) (store : Store) (uid : ObjectId) (q : ListQuery)
    (p L : Nat) (matching : Task → Bool)
    (hp : pageParam q = some (p : Int)) (hl : limitParam q = some (L : Int))
    (hp1 : 1 ≤ p) (hL1 : 1 ≤ L)
    (hm : compileFilter env (buildFilter env uid q) = .ok matching) :
    ∃ tasks pg, getTasks env store uid q = .list tasks pg ∧
      tasks = ((((sortTasks (q.sortBy.getD "createdAt")
          (decide (q.sortOrder.getD "desc" = "asc")) (store.filter matching)).drop
            ((p - 1) * L)).take L).map (populateAssignee env)) ∧
      tasks.length = min L (store.countP matching - (p - 1) * L) := by
  have hskip : ((p : Int) - 1) * (L : Int) = (((p - 1) * L : Nat) : Int) := by
    rw [Nat.cast_mul, Nat.cast_sub hp1, Nat.cast_one]
  have hnn : 0 ≤ ((p : Int) - 1) * (L : Int) := by
    rw [hskip]
    exact Int.ofNat_nonneg _
  have hL0 : (L : Int) ≠ 0 := by omega
  have hpage : fetchPage store q matching p L =
      ((sortTasks (q.sortBy.getD "createdAt") (decide (q.sortOrder.getD "desc" = "asc"))
        (store.filter matching)).drop ((p - 1) * L)).take L := by
    unfold fetchPage applyLimit
    rw [if_neg hL0, hskip, Int.toNat_ofNat, Int.natAbs_ofNat]
  refine ⟨_, _, getTasks_of_params hp hl hnn hm, ?_, ?_⟩
  · rw [hpage]
  · rw [hpage, List.length_map, List.length_take, List.length_drop, length_sortTasks,
      List.countP_eq_length_filter]

/-- The pages of C12 over fifteen tasks: the request without parameters (page
1, limit 10) returns 10 of them and `page=2&limit=10` returns 5. -/
theorem getTasks_page_length_witness :
    (∃ tasks pg, getTasks sampleEnv fifteenStore 1 ListQuery.empty = .list tasks pg ∧
      tasks.length = min 10 (15 - (1 - 1) * 10)) ∧
    (∃ tasks pg, getTasks sampleEnv fifteenStore 1 pageTwoQuery = .list tasks pg ∧
      tasks.length = min 10 (15 - (2 - 1) * 10)) ∧
    getTasks sampleEnv fifteenStore 1 pageTwoQuery
      = .list (((fifteenStore.take 5).reverse).map (populateAssignee sampleEnv))
          { current := 2, total := some 2, count := 5, totalCount := 15 } :=
  ⟨(getTasks_page_length sampleEnv fifteenStore 1 ListQuery.empty 1 10
      _ (by decide) (by decide) (by decide) (by decide) rfl).elim
      (fun tasks h => h.elim (fun pg hh => ⟨tasks, pg, hh.1, hh.2.2⟩)),
   (getTasks_page_length sampleEnv fifteenStore 1 pageTwoQuery 2 10
      _ (by decide) (by decide) (by decide) (by decide) rfl).elim
      (fun tasks h => h.elim (fun pg hh => ⟨tasks, pg, hh.1, hh.2.2⟩)),
   by decide⟩

/-- The integer `ceilDiv a b` is the ceiling of the quotient `a / b` for a
positive divisor. -/
theorem ceilDiv_eq_ceil (a b : Int) (hb : 1 ≤ b) : ceilDiv a b = ⌈(a : ℚ) / (b : ℚ)⌉ := by
  obtain ⟨n, rfl⟩ : ∃ n : Nat, b = (n : Int) := ⟨b.toNat, (Int.toNat_of_nonneg (by omega)).symm⟩
  unfold ceilDiv
  rw [Int.fdiv_eq_ediv _ (Int.ofNat_nonneg n)]
  have h := Rat.floor_intCast_div_natCast (-a) n
  have hneg : ((-a : Int) : ℚ) / (n : ℚ) = -((a : ℚ) / ((n : Int) : ℚ)) := by
    push_cast
    ring
  rw [hneg] at h
  rw [← h, ← Int.ceil_neg, neg_neg]

theorem buildFilter_page_limit (env : Env) (uid : ObjectId) (q : ListQuery)
    (page limit : Option String) :
    buildFilter env uid { q with page := page, limit := limit } = buildFilter env uid q := rfl

/-- C13: in a listing answered for a request with limit `L ≥ 1`, `current` is
the requested page, `total` is the ceiling of `totalCount / L`, `count` is the
length of the returned list and `totalCount` is the number of stored tasks the
filter matches; the same request with any other page and limit reports the
same `totalCount`. -/
theorem getTasks_pagination_block (env : Env) (store : Store) (uid : ObjectId)
    (q : ListQuery) (tasks : List Populated) (pg : Pagination) (L : Int)
    (h : getTasks env store uid q = .list tasks pg) (hl : limitParam q = some L)
    (hL : 1 ≤ L) :
    pageParam q = some pg.current ∧
    pg.total = some ⌈(pg.totalCount : ℚ) / (L : ℚ)⌉ ∧
    pg.count = tasks.length ∧
    (∃ matching, compileFilter env (buildFilter env uid q) = .ok matching ∧
      pg.totalCount = store.countP matching) ∧
    (∀ page limit tasks2 pg2,
      getTasks env store uid { q with page := page, limit := limit } = .list tasks2 pg2 →
      pg2.totalCount = pg.totalCount) := by
  obtain ⟨p, l, matching, hp, hl2, _, hm, htasks, hpg⟩ := getTasks_list_inv h
  rw [hl] at hl2
  cases hl2
  have hL0 : L ≠ 0 := by omega
  subst hpg
  refine ⟨hp, ?_, ?_, ⟨matching, hm, ?_⟩, ?_⟩
  · simp only [if_neg hL0]
    rw [ceilDiv_eq_ceil _ _ hL]
    rfl
  · rw [htasks, List.length_map]
  · exact (List.countP_eq_length_filter _ _).symm
  · intro page limit tasks2 pg2 h2
    obtain ⟨_, _, matching2, _, _, _, hm2, _, hpg2⟩ := getTasks_list_inv h2
    rw [buildFilter_page_limit, hm] at hm2
    cases hm2
    rw [hpg2]

/-- The pagination block of C13 for `page=2&limit=10` over fifteen tasks:
current 2, total 2, count 5, totalCount 15. -/
theorem getTasks_pagination_block_witness :
    getTasks sampleEnv fifteenStore 1 pageTwoQuery
      = .list (((fifteenStore.take 5).reverse).map (populateAssignee sampleEnv))
          { current := 2, total := some 2, count := 5, totalCount := 15 } ∧
    pageParam pageTwoQuery = some 2 ∧
    (some 2 : Option Int) = some ⌈((15 : Nat) : ℚ) / ((10 : Int) : ℚ)⌉ ∧
    (5 : Nat) = (((fifteenStore.take 5).reverse).map (populateAssignee sampleEnv)).length :=
  ⟨by decide,
   (getTasks_pagination_block sampleEnv fifteenStore 1 pageTwoQuery
      (((fifteenStore.take 5).reverse).map (populateAssignee sampleEnv))
      { current := 2, total := some 2, count := 5, totalCount := 15 } 10 (by decide)
      (by decide) (by decide)).1,
   (getTasks_pagination_block sampleEnv fifteenStore 1 pageTwoQuery
      (((fifteenStore.take 5).reverse).map (populateAssignee sampleEnv))
      { current := 2, total := some 2, count := 5, totalCount := 15 } 10 (by decide)
      (by decide) (by decide)).2.1,
   (getTasks_pagination_block sampleEnv fifteenStore 1 pageTwoQuery
      (((fifteenStore.take 5).reverse).map (populateAssignee sampleEnv))
      { current := 2, total := some 2, count := 5, totalCount := 15 } 10 (by decide)
      (by decide) (by decide)).2.2.1⟩



/-! ## The search filter -/

/-- With a search string whose pattern compiles, a compiled filter is the
filter without the search together with the `$or` of the three pattern
tests. -/
theorem compileFilter_search {env : Env} {f : TaskFilter} {s : String} {m : String → Bool}
    {matching : Task → Bool} (hs : f.search = some s) (hr : env.regex s = some m)
    (hm : compileFilter env f = .ok matching) :
    ∃ rest, compileFilter env { f with search := none } = .ok rest ∧
      ∀ t, matching t =
        (rest t && (m t.title || regexOn m t.description || regexOn m t.assigneeName)) := by
  unfold compileFilter at hm ⊢
  simp only [hs, Option.map_some', hr, Option.map_none'] at hm ⊢
  split at hm
  · cases hm
  · split at hm
    · cases hm
    · cases hm
    · injection hm with hm
      subst hm
      refine ⟨_, rfl, ?_⟩
      intro t
      simp only [Bool.and_true]
      exact Bool.and_right_comm _ _ _

theorem matchesAt_congr {eq1 eq2 : Char → Char → Bool} (p : List Char)
    (h : ∀ a ∈ p, ∀ b, eq1 a b = eq2 a b) (x : List Char) :
    matchesAt eq1 p x = matchesAt eq2 p x := by
  induction p generalizing x with
  | nil => cases x <;> rfl
  | cons a as ih =>
    cases x with
    | nil => rfl
    | cons c cs =>
      simp only [matchesAt]
      rw [h a (List.mem_cons_self a as) c, ih (fun b hb => h b (List.mem_cons_of_mem a hb)) cs]

theorem occursIn_congr {eq1 eq2 : Char → Char → Bool} (p : List Char)
    (h : ∀ a ∈ p, ∀ b, eq1 a b = eq2 a b) (x : List Char) :
    occursIn eq1 p x = occursIn eq2 p x := by
  induction x with
  | nil => simp only [occursIn, matchesAt_congr p h]
  | cons c cs ih => simp only [occursIn, matchesAt_congr p h, ih]

/-- On a pattern without `.` the engine `dotRegex` tests for the literal
substring, case-insensitively. -/
theorem dotSearch_eq_ciContains (p : String) (hp : '.' ∉ p.data) (x : String) :
    dotSearch p x = ciContains p x := by
  unfold dotSearch ciContains
  apply occursIn_congr
  intro a ha b
  have hne : a ≠ '.' := fun h => hp (h ▸ ha)
  simp only [if_neg hne]

/-- C14, as the code has it: the search string is a pattern.  For a non-empty
search string that compiles as a regular expression, a stored task is matched
iff it passes the rest of the filter (the caller's scope and the other
parameters) and the pattern matches, case-insensitively and anywhere, its
title, its description or its assigneeName.  When the engine takes the string
literally (it has no metacharacter), that is the case-insensitive substring
test of the claim. -/
theorem search_filter_matches (env : Env) (uid : ObjectId) (q : ListQuery) (s : String)
    (m : String → Bool) (matching : Task → Bool)
    (hs : q.search = some s) (hne : s ≠ "") (hr : env.regex s = some m)
    (hm : compileFilter env (buildFilter env uid q) = .ok matching) :
    ∃ rest, compileFilter env (buildFilter env uid { q with search := none }) = .ok rest ∧
      (∀ t, matching t = true ↔ rest t = true ∧
        (m t.title = true ∨ (∃ d, t.description = some d ∧ m d = true) ∨
          (∃ n, t.assigneeName = some n ∧ m n = true))) ∧
      ((∀ x, m x = ciContains s x) →
        ∀ t, matching t = true ↔ rest t = true ∧
          (ciContains s t.title = true ∨
            (∃ d, t.description = some d ∧ ciContains s d = true) ∨
            (∃ n, t.assigneeName = some n ∧ ciContains s n = true))) := by
  have hsearch : (buildFilter env uid q).search = some s := by
    simp [buildFilter, hs, hne]
  obtain ⟨rest, hrest, hsplit⟩ := compileFilter_search hsearch hr hm
  have hopt : ∀ (o : Option String), regexOn m o = true ↔ ∃ v, o = some v ∧ m v = true := by
    intro o
    cases o <;> simp [regexOn]
  have hmain : ∀ t, matching t = true ↔ rest t = true ∧
      (m t.title = true ∨ (∃ d, t.description = some d ∧ m d = true) ∨
        (∃ n, t.assigneeName = some n ∧ m n = true)) := by
    intro t
    rw [hsplit t, Bool.and_eq_true, Bool.or_eq_true, Bool.or_eq_true, hopt, hopt, or_assoc]
  refine ⟨rest, hrest, hmain, ?_⟩
  intro hlit t
  rw [hmain t]
  simp only [hlit]

/-- The search of C14 with the string `B`, which has no metacharacter, on the
engine `dotRegex`: the filter matches a task of the caller iff `B` occurs,
in either case, in its title, description or assigneeName. -/
theorem search_filter_matches_witness :
    ∃ matching rest, compileFilter utcEnv (buildFilter utcEnv 1 letterQuery) = .ok matching ∧
      compileFilter utcEnv (buildFilter utcEnv 1 { letterQuery with search := none })
        = .ok rest ∧
      (∀ t, matching t = true ↔ rest t = true ∧
        (ciContains "B" t.title = true ∨
          (∃ d, t.description = some d ∧ ciContains "B" d = true) ∨
          (∃ n, t.assigneeName = some n ∧ ciContains "B" n = true))) ∧
      matching abcTask = true ∧ ciContains "B" abcTask.title = true :=
  ⟨_, (search_filter_matches utcEnv 1 letterQuery "B" (dotSearch "B") _ rfl (by decide) rfl
        rfl).elim
      (fun rest h => ⟨rest, rfl, h.1,
        h.2.2 (dotSearch_eq_ciContains "B" (by decide)), by decide, by decide⟩)⟩

/-- C14 as stated fails on a search string with a metacharacter.  The string
`a.c` is no substring of the title `abc`, yet the task is listed, `.` standing
for any character; and the string `(` is answered with an error, not with the
tasks that contain a parenthesis. -/
theorem search_literal_counterexample :
    getTasks utcEnv [abcTask] 1 dotQuery
      = .list [populateAssignee utcEnv abcTask]
          { current := 1, total := some 1, count := 1, totalCount := 1 } ∧
    ciContains "a.c" abcTask.title = false ∧
    abcTask.description = none ∧ abcTask.assigneeName = none ∧
    getTasks utcEnv [{ abcTask with title := "f(x)" }] 1 parenQuery
      = .failed (.store "Regular expression is invalid") ∧
    ciContains "(" "f(x)" = true := by
  decide

/-! ## The day filter -/

/-- The `dueDate` filter of a compiled listing filter: a matched task has a
due date from the `$gte` bound up to, but not including, the `$lt` bound. -/
theorem compileFilter_dueDate {env : Env} {f : TaskFilter} {m : Task → Bool}
    {lo hi : Timestamp} (h : compileFilter env f = .ok m)
    (hf : f.dueDate = some { gte := some lo, lt := some hi }) (t : Task) (ht : m t = true) :
    ∃ d, t.dueDate = .value d ∧ lo ≤ d ∧ d < hi := by
  unfold compileFilter at h
  split at h
  · cases h
  · split at h
    · cases h
    · split at h
      · cases h
      · cases h
      · injection h with h
        subst h
        simp only [Bool.and_eq_true, decide_eq_true_eq] at ht
        have hd := ht.2
        rw [hf] at hd
        simp only at hd
        cases hdue : t.dueDate with
        | missing => rw [hdue] at hd; cases hd
        | null => rw [hdue] at hd; cases hd
        | value d =>
          rw [hdue] at hd
          simp only [Bool.and_eq_true, decide_eq_true_eq] at hd
          exact ⟨d, rfl, hd.1, hd.2⟩

/-- C15 on the code, on a server in UTC with `dueDate=1970-01-02`: the bounds
are `$gte` 00:00:00.000 and `$lt` 23:59:59.999 of that day, so the task due at
23:59:59.999 lies in the day of the claim but is not listed (the task due a
millisecond earlier is). -/
theorem dueDate_filter_excludes_last_instant :
    (buildFilter utcEnv 1 dayQuery).dueDate
      = some { gte := some 86400000, lt := some (86400000 + 86399999) } ∧
    dueOnDayBySpec 86400000 lastInstantTask = true ∧
    dueOnDayBySpec 86400000 lateTask = true ∧
    getTasks utcEnv [lastInstantTask, lateTask] 1 dayQuery
      = .list [populateAssignee utcEnv lateTask]
          { current := 1, total := some 1, count := 1, totalCount := 1 } := by
  decide

/-! ## The equality filters -/

/-- The equality predicates of a compiled listing filter hold of every task it
matches. -/
theorem compileFilter_equalities {env : Env} {f : TaskFilter} {m : Task → Bool}
    (h : compileFilter env f = .ok m) (t : Task) (ht : m t = true) :
    (∀ v, f.status = some v → t.status = v) ∧
    (∀ v, f.priority = some v → t.priority = v) ∧
    (∀ v, f.assignee = some v → ∃ a, env.castObjectId v = some a ∧ t.assignee = some a) := by
  unfold compileFilter at h
  split at h
  · cases h
  · rename_i hwho
    split at h
    · cases h
    · split at h
      · cases h
      · cases h
      · injection h with h
        subst h
        simp only [Bool.and_eq_true, decide_eq_true_eq] at ht
        refine ⟨?_, ?_, ?_⟩
        · intro v hv
          have hs := ht.1.1.1.1.2
          rw [hv] at hs
          simpa using hs
        · intro v hv
          have hs := ht.1.1.1.2
          rw [hv] at hs
          simpa using hs
        · intro v hv
          have hs := ht.1.1.2
          rw [hv] at hs hwho
          simp only [Option.map_some'] at hs hwho
          cases hc : env.castObjectId v with
          | none =>
            rw [hc] at hwho
            exact absurd rfl hwho
          | some a =>
            rw [hc] at hs
            exact ⟨a, rfl, by simpa using hs⟩

theorem mem_fetchPage {store : Store} {q : ListQuery} {matching : Task → Bool} {p l : Int}
    {t : Task} (h : t ∈ fetchPage store q matching p l) : matching t = true := by
  unfold fetchPage at h
  exact (List.mem_filter.mp (mem_sortTasks (List.mem_of_mem_drop (mem_applyLimit h)))).2

theorem selective_eq_some {x : Option String} {v : String} (hx : x = some v) (h1 : v ≠ "")
    (h2 : v ≠ "all") : selective x = some v := by
  simp [selective, hx, h1, h2]

theorem selective_eq_none {x : Option String}
    (hx : x = none ∨ x = some "" ∨ x = some "all") : selective x = none := by
  rcases hx with h | h | h <;> simp [selective, h]

/-- C16, as the code has it: a parameter `status`, `priority` or `assignee`
that is present, not empty and not `all` restricts the listing to the tasks
whose field equals it (for `assignee`, the ObjectId the value casts to); a
parameter that is absent, empty or `all` puts no predicate on the field, and
the response is that of the same request without the parameter. -/
theorem getTasks_equality_filters (env : Env) (store : Store) (uid : ObjectId)
    (q : ListQuery) :
    (∀ tasks pg, getTasks env store uid q = .list tasks pg →
      (∀ v, q.status = some v → v ≠ "" → v ≠ "all" → ∀ p ∈ tasks, p.doc.status = v) ∧
      (∀ v, q.priority = some v → v ≠ "" → v ≠ "all" → ∀ p ∈ tasks, p.doc.priority = v) ∧
      (∀ v, q.assignee = some v → v ≠ "" → v ≠ "all" →
        ∃ a, env.castObjectId v = some a ∧ ∀ p ∈ tasks, p.doc.assignee = some a)) ∧
    (q.status = none ∨ q.status = some "" ∨ q.status = some "all" →
      (buildFilter env uid q).status = none ∧
      getTasks env store uid q = getTasks env store uid { q with status := none }) ∧
    (q.priority = none ∨ q.priority = some "" ∨ q.priority = some "all" →
      (buildFilter env uid q).priority = none ∧
      getTasks env store uid q = getTasks env store uid { q with priority := none }) ∧
    (q.assignee = none ∨ q.assignee = some "" ∨ q.assignee = some "all" →
      (buildFilter env uid q).assignee = none ∧
      getTasks env store uid q = getTasks env store uid { q with assignee := none }) := by
  refine ⟨?_, ?_, ?_, ?_⟩
  · intro tasks pg h
    obtain ⟨p, l, matching, _, _, _, hm, htasks, _⟩ := getTasks_list_inv h
    have hdoc : ∀ x ∈ tasks, matching x.doc = true := by
      intro x hx
      rw [htasks] at hx
      obtain ⟨t, ht, rfl⟩ := List.mem_map.mp hx
      exact mem_fetchPage ht
    refine ⟨?_, ?_, ?_⟩
    · intro v hv h1 h2 x hx
      exact (compileFilter_equalities hm x.doc (hdoc x hx)).1 v
        (selective_eq_some hv h1 h2)
    · intro v hv h1 h2 x hx
      exact (compileFilter_equalities hm x.doc (hdoc x hx)).2.1 v
        (selective_eq_some hv h1 h2)
    · intro v hv h1 h2
      have hf : (buildFilter env uid q).assignee = some v := selective_eq_some hv h1 h2
      cases hc : env.castObjectId v with
      | none =>
        exfalso
        unfold compileFilter at hm
        simp only [hf, Option.map_some', hc] at hm
        cases hm
      | some a =>
        refine ⟨a, rfl, ?_⟩
        intro x hx
        obtain ⟨b, hb, hxa⟩ := (compileFilter_equalities hm x.doc (hdoc x hx)).2.2 v hf
        rw [hc] at hb
        cases hb
        exact hxa
  · intro hq
    have hb : buildFilter env uid { q with status := none } = buildFilter env uid q := by
      simp only [buildFilter, selective_eq_none hq]
      rfl
    refine ⟨selective_eq_none hq, ?_⟩
    unfold getTasks
    rw [hb]
  · intro hq
    have hb : buildFilter env uid { q with priority := none } = buildFilter env uid q := by
      simp only [buildFilter, selective_eq_none hq]
      rfl
    refine ⟨selective_eq_none hq, ?_⟩
    unfold getTasks
    rw [hb]
  · intro hq
    have hb : buildFilter env uid { q with assignee := none } = buildFilter env uid q := by
      simp only [buildFilter, selective_eq_none hq]
      rfl
    refine ⟨selective_eq_none hq, ?_⟩
    unfold getTasks
    rw [hb]

/-- The listing of C16 for `status=completed&priority=high&assignee=all` over
a pending and a completed task of user 1: only the completed one is listed,
and `assignee=all` changes nothing. -/
theorem getTasks_equality_filters_witness :
    getTasks sampleEnv [sampleTask, doneTask] 1 completedHighQuery
      = .list [populateAssignee sampleEnv doneTask]
          { current := 1, total := some 1, count := 1, totalCount := 1 } ∧
    (∀ p ∈ [populateAssignee sampleEnv doneTask], p.doc.status = "completed") ∧
    (∀ p ∈ [populateAssignee sampleEnv doneTask], p.doc.priority = "high") ∧
    (buildFilter sampleEnv 1 completedHighQuery).assignee = none ∧
    getTasks sampleEnv [sampleTask, doneTask] 1 completedHighQuery
      = getTasks sampleEnv [sampleTask, doneTask] 1
          { completedHighQuery with assignee := none } :=
  ⟨by decide,
   ((getTasks_equality_filters sampleEnv [sampleTask, doneTask] 1 completedHighQuery).1
      [populateAssignee sampleEnv doneTask]
      { current := 1, total := some 1, count := 1, totalCount := 1 } (by decide)).1
      "completed" rfl (by decide) (by decide),
   ((getTasks_equality_filters sampleEnv [sampleTask, doneTask] 1 completedHighQuery).1
      [populateAssignee sampleEnv doneTask]
      { current := 1, total := some 1, count := 1, totalCount := 1 } (by decide)).2.1
      "high" rfl (by decide) (by decide),
   ((getTasks_equality_filters sampleEnv [sampleTask, doneTask] 1
      completedHighQuery).2.2.2 (Or.inr (Or.inr rfl))).1,
   ((getTasks_equality_filters sampleEnv [sampleTask, doneTask] 1
      completedHighQuery).2.2.2 (Or.inr (Or.inr rfl))).2⟩

/-- C16 as stated fails for a parameter that is present with an empty value:
`status=` is not the sentinel, yet no predicate is built and the pending task
is listed, whose status is not the empty string. -/
theorem empty_parameter_counterexample :
    blankStatusQuery.status = some "" ∧
    getTasks sampleEnv [sampleTask] 1 blankStatusQuery
      = .list [populateAssignee sampleEnv sampleTask]
          { current := 1, total := some 1, count := 1, totalCount := 1 } ∧
    (populateAssignee sampleEnv sampleTask).doc.status ≠ "" := by
  decide

/-! ## Bulk updates -/

/-- The store after a bulk update with a non-empty `taskIds` array. -/
theorem bulkUpdateTasks_store (env : Env) (store : Store) (uid : ObjectId)
    (ids : List ObjectId) (updates : Updates) (hne : ids ≠ []) :
    (bulkUpdateTasks env store uid (.array ids) updates).2
      = store.map (fun t =>
          if t.id ∈ ids ∧ t.createdBy = uid then applySet env.now updates t else t) := by
  cases ids with
  | nil => exact absurd rfl hne
  | cons i is =>
    have hscope : bulkScope uid (i :: is)
        = fun t => decide (t.id ∈ i :: is ∧ t.createdBy = uid) := by
      funext t
      simp [bulkScope]
    simp only [bulkUpdateTasks, hscope, decide_eq_true_eq]

/-- C17: for a non-empty `taskIds` array, `bulkUpdateTasks` rewrites each
stored task whose id is in `taskIds` and whose creator is the caller with the
payload and leaves every other task (one of another creator, even if assigned
to the caller, included) as it is; `matchedCount` is the number of the
rewritten tasks, so it counts no task of another creator. -/
theorem bulkUpdateTasks_scope (env : Env) (store : Store) (uid : ObjectId)
    (ids : List ObjectId) (updates : Updates) (hne : ids ≠ []) :
    ∃ modified,
      (bulkUpdateTasks env store uid (.array ids) updates).1
        = .bulk (store.countP (fun t => decide (t.id ∈ ids ∧ t.createdBy = uid))) modified ∧
      (bulkUpdateTasks env store uid (.array ids) updates).2
        = store.map (fun t =>
            if t.id ∈ ids ∧ t.createdBy = uid then applySet env.now updates t else t) ∧
      (∀ t ∈ store, t.createdBy ≠ uid →
        t ∈ (bulkUpdateTasks env store uid (.array ids) updates).2) ∧
      (∀ t ∈ store, t.id ∉ ids →
        t ∈ (bulkUpdateTasks env store uid (.array ids) updates).2) ∧
      store.countP (fun t => decide (t.id ∈ ids ∧ t.createdBy = uid))
        ≤ store.countP (fun t => decide (t.createdBy = uid)) := by
  cases ids with
  | nil => exact absurd rfl hne
  | cons i is =>
    have hscope : bulkScope uid (i :: is)
        = fun t => decide (t.id ∈ i :: is ∧ t.createdBy = uid) := by
      funext t
      simp [bulkScope]
    have hstore := bulkUpdateTasks_store env store uid (i :: is) updates hne
    refine ⟨store.countP (fun t =>
        bulkScope uid (i :: is) t && decide (applySet env.now updates t ≠ t)),
      ?_, hstore, ?_, ?_, ?_⟩
    · simp only [bulkUpdateTasks]
      rw [hscope]
    · intro t ht hown
      rw [hstore]
      exact List.mem_map.mpr ⟨t, ht, by simp [hown]⟩
    · intro t ht hid
      rw [hstore]
      exact List.mem_map.mpr ⟨t, ht, by simp [hid]⟩
    · apply List.countP_mono_left
      intro t _ h
      simp only [decide_eq_true_eq] at h ⊢
      exact h.2

/-- The bulk update of C17 by user 1 on the ids 10, 11 and 12: task 10 (of
user 1) gets priority high; task 11 (of user 3) and task 12 (of user 3,
assigned to user 1) stay as they are, and `matchedCount` is 1. -/
theorem bulkUpdateTasks_scope_witness :
    bulkUpdateTasks sampleEnv [sampleTask, otherTask, assignedTask] 1 (.array [10, 11, 12])
        highUpdates
      = (.bulk 1 1,
         [{ sampleTask with priority := "high", updatedAt := 1000 }, otherTask,
          assignedTask]) ∧
    (∃ modified,
      (bulkUpdateTasks sampleEnv [sampleTask, otherTask, assignedTask] 1 (.array [10, 11, 12])
          highUpdates).1
        = .bulk ([sampleTask, otherTask, assignedTask].countP
            (fun t => decide (t.id ∈ [10, 11, 12] ∧ t.createdBy = 1))) modified) :=
  ⟨by decide,
   (bulkUpdateTasks_scope sampleEnv [sampleTask, otherTask, assignedTask] 1 [10, 11, 12]
      highUpdates (by decide)).elim (fun modified h => ⟨modified, h.1⟩)⟩

/-- C18: when `taskIds` is missing, is no array or is the empty array,
`bulkUpdateTasks` answers 400 with
`{success: false, message: 'Task IDs array is required'}` and the store is
untouched. -/
theorem bulkUpdateTasks_requires_ids (env : Env) (store : Store) (uid : ObjectId)
    (updates : Updates) :
    bulkUpdateTasks env store uid .absent updates
      = (.message 400 false "Task IDs array is required", store) ∧
    bulkUpdateTasks env store uid .notArray updates
      = (.message 400 false "Task IDs array is required", store) ∧
    bulkUpdateTasks env store uid (.array []) updates
      = (.message 400 false "Task IDs array is required", store) :=
  ⟨rfl, rfl, rfl⟩

/-- C19, as the code has it: the bulk path runs no `completedAt` derivation.
For a non-empty `taskIds` array and a payload without a `completedAt` key,
every matched task keeps its `completedAt` whatever status the payload sets,
and keeps every path the payload does not name, except `updatedAt`, which the
timestamps of the schema set to the current time. -/
theorem bulkUpdateTasks_no_derivation (env : Env) (store : Store) (uid : ObjectId)
    (ids : List ObjectId) (u : Updates) (hne : ids ≠ []) (hkey : u.completedAt = none) :
    ∃ g : Task → Task,
      (bulkUpdateTasks env store uid (.array ids) u).2 = store.map g ∧
      ∀ t, t.id ∈ ids → t.createdBy = uid →
        (g t).completedAt = t.completedAt ∧
        (∀ s, u.status = some s → (g t).status = s) ∧
        (g t).updatedAt = env.now ∧
        (g t).id = t.id ∧ (g t).createdAt = t.createdAt ∧
        (u.title = none → (g t).title = t.title) ∧
        (u.description = none → (g t).description = t.description) ∧
        (u.status = none → (g t).status = t.status) ∧
        (u.priority = none → (g t).priority = t.priority) ∧
        (u.dueDate = none → (g t).dueDate = t.dueDate) ∧
        (u.assignee = none → (g t).assignee = t.assignee) ∧
        (u.assigneeName = none → (g t).assigneeName = t.assigneeName) ∧
        (u.createdBy = none → (g t).createdBy = t.createdBy) ∧
        (u.tags = none → (g t).tags = t.tags) ∧
        (u.estimatedHours = none → (g t).estimatedHours = t.estimatedHours) ∧
        (u.actualHours = none → (g t).actualHours = t.actualHours) := by
  refine ⟨_, bulkUpdateTasks_store env store uid ids u hne, ?_⟩
  intro t hid hown
  rw [if_pos ⟨hid, hown⟩]
  refine ⟨?_, ?_, rfl, rfl, rfl, ?_, ?_, ?_, ?_, ?_, ?_, ?_, ?_, ?_, ?_, ?_⟩
  · simp only [applySet, hkey]
  · intro s hs
    simp only [applySet, hs, Option.getD_some]
  all_goals
    intro h
    simp only [applySet, h, Option.getD_none]

/-- The bulk update of C19 that completes the pending task 10: its status is
completed, its `completedAt` stays unset, its other paths stay, and
`updatedAt` is the current time 1000. -/
theorem bulkUpdateTasks_no_derivation_witness :
    completeUpdates.completedAt = none ∧
    (bulkUpdateTasks sampleEnv [sampleTask] 1 (.array [10]) completeUpdates).2
      = [{ sampleTask with status := "completed", updatedAt := 1000 }] ∧
    (∃ g : Task → Task,
      (bulkUpdateTasks sampleEnv [sampleTask] 1 (.array [10]) completeUpdates).2
        = [sampleTask].map g ∧
      (g sampleTask).completedAt = sampleTask.completedAt ∧
      (g sampleTask).status = "completed" ∧
      (g sampleTask).updatedAt = 1000) :=
  ⟨rfl, by decide,
   (bulkUpdateTasks_no_derivation sampleEnv [sampleTask] 1 [10] completeUpdates (by decide)
      rfl).elim
      (fun g h => ⟨g, h.1, (h.2 sampleTask (by decide) rfl).1,
        (h.2 sampleTask (by decide) rfl).2.1 "completed" rfl,
        (h.2 sampleTask (by decide) rfl).2.2.1⟩)⟩

/-- C19 as stated fails on `updatedAt`: the payload `{status: 'completed'}`
does not name it, and the matched task has it moved from 0 to the current
time 1000 (its `completedAt` stays unset, as claimed). -/
theorem bulk_update_touches_updatedAt_counterexample :
    completeUpdates = { Updates.empty with status := some "completed" } ∧
    sampleTask.updatedAt = 0 ∧ sampleTask.completedAt = none ∧
    (bulkUpdateTasks sampleEnv [sampleTask] 1 (.array [10]) completeUpdates).2.map
        Task.updatedAt = [1000] ∧
    (bulkUpdateTasks sampleEnv [sampleTask] 1 (.array [10]) completeUpdates).2.map
        Task.completedAt = [none] := by
  decide

/-! ## The virtual `isOverdue` -/

/-- C20, as the code has it: `isOverdue` is the boolean true iff the due date
is set, lies before the current time and the status is not completed; with a
due date set it is the boolean false in every other case; without one it is
the unset due date itself, `undefined` or `null`. -/
theorem isOverdue_value (now : Timestamp) (t : Task) :
    (isOverdue now t = .bool true ↔
      ∃ d, t.dueDate = .value d ∧ d < now ∧ t.status ≠ "completed") ∧
    (∀ d, t.dueDate = .value d → ¬(d < now ∧ t.status ≠ "completed") →
      isOverdue now t = .bool false) ∧
    (t.dueDate = .missing → isOverdue now t = .undefined) ∧
    (t.dueDate = .null → isOverdue now t = .null) := by
  unfold isOverdue
  cases hd : t.dueDate with
  | missing => simp
  | null => simp
  | value d =>
    by_cases hs : t.status = "completed"
    · simp [hs]
    · by_cases hlt : d < now
      · simp [hs, hlt]
      · simp [hs, hlt]

/-- The virtual of C20 on a pending task due at 5 with the clock at 1000
(true), on the same task once completed (false) and on a task without due
date (`undefined`). -/
theorem isOverdue_value_witness :
    isOverdue 1000 { sampleTask with dueDate := .value 5 } = .bool true ∧
    isOverdue 1000 { sampleTask with dueDate := .value 5, status := "completed" }
      = .bool false ∧
    isOverdue 1000 sampleTask = .undefined :=
  ⟨(isOverdue_value 1000 { sampleTask with dueDate := .value 5 }).1.mpr
      ⟨5, rfl, by decide, by decide⟩,
   (isOverdue_value 1000 { sampleTask with dueDate := .value 5, status := "completed" }).2.1
      5 rfl (by decide),
   (isOverdue_value 1000 sampleTask).2.2.1 rfl⟩

/-- C20 as stated fails for a task without due date: the virtual yields
`undefined` (or `null` for a stored `null`), not the boolean false. -/
theorem isOverdue_unset_counterexample :
    sampleTask.dueDate = .missing ∧
    isOverdue 1000 sampleTask = .undefined ∧
    isOverdue 1000 sampleTask ≠ .bool false ∧
    isOverdue 1000 { sampleTask with dueDate := .null } = .null := by
  decide



/-! ## The CSV export -/

theorem intercalate_go_append (sep : String) :
    ∀ (l : List String) (acc a : String),
      String.intercalate.go (acc ++ a) sep l = acc ++ String.intercalate.go a sep l := by
  intro l
  induction l with
  | nil =>
    intro acc a
    rfl
  | cons b bs ih =>
    intro acc a
    simp only [String.intercalate.go]
    rw [← ih acc (a ++ sep ++ b), String.append_assoc, String.append_assoc,
      String.append_assoc]

/-- The model of `Array.prototype.join` is the library's `String.intercalate`. -/
theorem jsJoin_eq_intercalate (sep : String) : ∀ l : List String, jsJoin sep l = sep.intercalate l
  | [] => rfl
  | [_] => rfl
  | a :: b :: rest => by
    rw [jsJoin, jsJoin_eq_intercalate sep (b :: rest)]
    simp only [String.intercalate, String.intercalate.go]
    rw [intercalate_go_append]

/-- C21: `convertToCSV` is the header line and one line per task, in list
order, with a line feed between two lines.  The header line is the text
`"Title","Description","Status","Priority","Due Date","Assignee","Created At","Completed At"`;
the line of a task is its eight fields in the order title, description,
status, priority, due date, assigneeName, created at, completed at, with a
comma between two fields, each field being a double quote, the value as it is
(nothing is escaped) and a double quote; a date is printed as its date-only
ISO form; an absent description, due date, assigneeName or completion date is
the empty value, so the field is two double quotes. -/
theorem convertToCSV_format (tasks : List Task) :
    convertToCSV tasks =
      "\n".intercalate
        ("\"Title\",\"Description\",\"Status\",\"Priority\",\"Due Date\",\"Assignee\",\"Created At\",\"Completed At\"" ::
          tasks.map (fun t =>
            ",".intercalate
              [ "\"" ++ t.title ++ "\"",
                "\"" ++ (match t.description with
                  | some v => v
                  | none => "") ++ "\"",
                "\"" ++ t.status ++ "\"",
                "\"" ++ t.priority ++ "\"",
                "\"" ++ (match t.dueDate with
                  | .value d => isoDate d
                  | .missing => ""
                  | .null => "") ++ "\"",
                "\"" ++ (match t.assigneeName with
                  | some v => v
                  | none => "") ++ "\"",
                "\"" ++ isoDate t.createdAt ++ "\"",
                "\"" ++ (match t.completedAt with
                  | some d => isoDate d
                  | none => "") ++ "\"" ])) := by
  have hq : dquote = "\"" := by decide
  have hn : newline = "\n" := by decide
  have hhead : jsJoin "," (csvHeaders.map csvQuote)
      = "\"Title\",\"Description\",\"Status\",\"Priority\",\"Due Date\",\"Assignee\",\"Created At\",\"Completed At\"" := by
    decide
  unfold convertToCSV
  rw [jsJoin_eq_intercalate, hn, List.map_cons, hhead, List.map_map]
  congr 2
  apply List.map_congr_left
  intro t _
  simp only [Function.comp, jsJoin_eq_intercalate, csvRow, List.map_cons, List.map_nil,
    csvQuote, hq]
  cases t.description <;> cases t.dueDate <;> cases t.assigneeName <;> cases t.completedAt <;>
    rfl

set_option maxRecDepth 20000 in
/-- The export of C21 for two tasks, as the text it is: the first task has a
double quote in its description, which stays as it is; the second has no
description, due date, assignee name or completion date, and its four fields
are empty.  The dates of the second part pin the date-only ISO form: century
and leap years, a date before 1970 and the two ends of the range of `Date`. -/
theorem convertToCSV_format_witness :
    convertToCSV [quotedTask, sampleTask]
      = "\"Title\",\"Description\",\"Status\",\"Priority\",\"Due Date\",\"Assignee\",\"Created At\",\"Completed At\"\n\"Say\",\"a\"b\",\"completed\",\"medium\",\"2024-01-15\",\"Ann\",\"2000-02-29\",\"2024-02-29\"\n\"a\",\"\",\"pending\",\"medium\",\"\",\"\",\"1970-01-01\",\"\"" ∧
    convertToCSV [] = "\"Title\",\"Description\",\"Status\",\"Priority\",\"Due Date\",\"Assignee\",\"Created At\",\"Completed At\"" ∧
    isoDate (-1) = "1969-12-31" ∧
    isoDate (-2203891200001) = "1900-02-28" ∧
    isoDate (-2203891200000) = "1900-03-01" ∧
    isoDate 4107542399999 = "2100-02-28" ∧
    isoDate 4107542400000 = "2100-03-01" ∧
    isoDate 1735689599999 = "2024-12-31" ∧
    isoDate (-62167219200000) = "0000-01-01" ∧
    isoDate (-62167219200001) = "-000001-12-31" ∧
    isoDate 253402300800000 = "+010000-01-01" ∧
    isoDate 8640000000000000 = "+275760-09-13" ∧
    isoDate (-8640000000000000) = "-271821-04-20" :=
  ⟨(convertToCSV_format [quotedTask, sampleTask]).trans (by rfl),
   (convertToCSV_format []).trans (by rfl),
   by decide, by decide, by decide, by decide, by decide, by decide, by decide, by decide,
   by decide, by decide, by decide⟩

/-! ## The due date validator -/

/-- The message of the `dueDate` validator is among the schema errors of a
save exactly when the validator rejects the value of the path. -/
theorem mem_schemaErrors_dueDate (now : Timestamp) (isNew : Bool) (old doc : Task) :
    "Due date must be in the future" ∈ schemaErrors now isNew old doc ↔
      dueDateValidator now doc.dueDate = false := by
  have hite : ∀ (c : Prop) [Decidable c] (a : String),
      "Due date must be in the future" ∈ (if c then [a] else []) ↔
        c ∧ "Due date must be in the future" = a := by
    intro c _ a
    by_cases hc : c <;> simp [hc]
  unfold schemaErrors dueDateValidator
  simp only [List.mem_append]
  cases doc.description <;> cases doc.estimatedHours <;> cases doc.actualHours <;>
    cases doc.dueDate <;>
    simp [hite, apply_ite (fun l => "Due date must be in the future" ∈ l)]

theorem resolveAssigneeCreate_dueDate (env : Env) (b d : TaskBody) :
    (resolveAssigneeCreate env b d).dueDate = d.dueDate := by
  unfold resolveAssigneeCreate
  split
  · rfl
  · split
    · rfl
    · split <;> rfl

theorem newDocument_of_dueDate {env : Env} {d : TaskBody} {owner : ObjectId} {s : String}
    {ms : Timestamp} (hc : d.createdBy = some owner) (hs : d.dueDate = some s)
    (hp : env.parseDate s = some ms) :
    ∃ doc, newDocument env d = .ok doc ∧ doc.dueDate = .value ms := by
  unfold newDocument
  simp [hc, hs, hp]

/-- C22: the `dueDate` validator accepts a value iff it is unset or not before
the current time, and on a new document its message is a schema error exactly
when it rejects.  So `createTask` with a valid body whose `dueDate` lies
before the current time stores nothing and fails with 'Due date must be in
the future', while a `dueDate` at or after the current time (the current
instant included) never fails with that message. -/
theorem dueDate_validation (env : Env) (store : Store) (uid : ObjectId) (body : TaskBody)
    (s : String) (d : Timestamp) (hv : validateTask env body = [])
    (hs : body.dueDate = some s) (hp : env.parseDate s = some d) :
    (∀ date, dueDateValidator env.now date = true ↔
      date = .missing ∨ date = .null ∨ ∃ v, date = .value v ∧ env.now ≤ v) ∧
    (∀ doc, "Due date must be in the future" ∈ schemaErrors env.now true doc doc ↔
      dueDateValidator env.now doc.dueDate = false) ∧
    (d < env.now →
      ∃ errs, createTask env store uid body = (.failed (.validation errs), store) ∧
        "Due date must be in the future" ∈ errs) ∧
    (env.now ≤ d →
      ∀ errs, (createTask env store uid body).1 = .failed (.validation errs) →
        "Due date must be in the future" ∉ errs) := by
  have hdata : (resolveAssigneeCreate env (sanitizeBody env body)
      { sanitizeBody env body with createdBy := some uid }).dueDate = some s := by
    rw [resolveAssigneeCreate_dueDate]
    exact hs
  have hown : (resolveAssigneeCreate env (sanitizeBody env body)
      { sanitizeBody env body with createdBy := some uid }).createdBy = some uid := by
    rw [resolveAssigneeCreate_createdBy]
  obtain ⟨doc, hdoc, hdue⟩ := newDocument_of_dueDate hown hdata hp
  refine ⟨?_, ?_, ?_, ?_⟩
  · intro date
    cases date <;> simp [dueDateValidator]
  · intro doc2
    rw [mem_schemaErrors_dueDate]
  · intro hlt
    have hmem : "Due date must be in the future" ∈ schemaErrors env.now true doc doc := by
      rw [mem_schemaErrors_dueDate, hdue]
      simpa [dueDateValidator] using hlt
    have hne : schemaErrors env.now true doc doc ≠ [] := fun h => by
      rw [h] at hmem
      cases hmem
    refine ⟨schemaErrors env.now true doc doc, ?_, hmem⟩
    unfold createTask
    simp only [hv, ne_eq, not_true_eq_false, if_false, hdoc, hne, not_false_eq_true, if_true]
  · intro hle errs hfail hmem
    rcases createTask_cases env store uid body with ⟨hresp, _⟩ | ⟨doc2, _, _, hrun⟩
    · have hrun : createTask env store uid body
          = (if schemaErrors env.now true doc doc ≠ [] then
              (.failed (.validation (schemaErrors env.now true doc doc)), store)
             else
              (.task 201 (populateBoth env (preSave env.now
                (resolveAssigneeCreate env (sanitizeBody env body)
                  { sanitizeBody env body with createdBy := some uid }).status.isSome doc))
                (some "Task created successfully"),
               store ++ [preSave env.now
                (resolveAssigneeCreate env (sanitizeBody env body)
                  { sanitizeBody env body with createdBy := some uid }).status.isSome doc])) := by
        unfold createTask
        simp only [hv, ne_eq, not_true_eq_false, if_false, hdoc]
      rw [hrun] at hfail
      split at hfail
      · injection hfail with hfail
        injection hfail with hfail
        rw [← hfail, mem_schemaErrors_dueDate, hdue] at hmem
        have : ¬ env.now ≤ d := by simpa [dueDateValidator] using hmem
        exact this hle
      · cases hfail
    · rw [hrun] at hfail
      cases hfail

/-- The creations of C22 with the due date 86400000: with the clock at that
very instant the task is created, a millisecond later the creation fails with
'Due date must be in the future' and nothing is stored. -/
theorem dueDate_validation_witness :
    (createTask atDueEnv [] 1 dueBody).1
      = .task 201 (populateBoth atDueEnv
          { sampleTask with id := 99, title := "x", assignee := none,
                            dueDate := .value 86400000, createdAt := 86400000,
                            updatedAt := 86400000 })
          (some "Task created successfully") ∧
    (∃ errs, createTask pastDueEnv [] 1 dueBody = (.failed (.validation errs), []) ∧
      "Due date must be in the future" ∈ errs) ∧
    (∀ errs, (createTask atDueEnv [] 1 dueBody).1 = .failed (.validation errs) →
      "Due date must be in the future" ∉ errs) :=
  ⟨by decide,
   (dueDate_validation pastDueEnv [] 1 dueBody "1970-01-02" 86400000 (by decide) rfl
      (by decide)).2.2.1 (by decide),
   (dueDate_validation atDueEnv [] 1 dueBody "1970-01-02" 86400000 (by decide) rfl
      (by decide)).2.2.2 (by decide)⟩

/-! ## Updates without title -/

/-- A body without `title` never passes `validateTask`, so `updateTask`
answers it with the 400 of the validation and stores nothing. -/
theorem updateTask_title_required (env : Env) (store : Store) (uid id : ObjectId)
    (body : TaskBody) (ht : body.title = none) :
    updateTask env store uid id body = (.validationFailed (validateTask env body), store) ∧
      "Invalid value" ∈ validateTask env body := by
  have hmem : "Invalid value" ∈ validateTask env body := by
    unfold validateTask
    simp [ht]
  have hne : validateTask env body ≠ [] := fun h => by
    rw [h] at hmem
    cases hmem
  exact ⟨by simp [updateTask, hne], hmem⟩

/-- C23 on the code: the update of the load test, `{status: 'in-progress'}` on
a task of the caller, is answered 400 'Validation failed' and the task stays
pending, because `PUT /:id` runs `validateTask`, whose `title` chain is not
optional; the load test expects 200.  The same update with a title is
answered 200. -/
theorem update_status_only_rejected :
    updateTask sampleEnv [sampleTask] 1 10 statusOnlyBody
      = (.validationFailed
          ["Invalid value", "Title is required and must be less than 100 characters"],
         [sampleTask]) ∧
    updateTask sampleEnv [sampleTask] 1 10 { statusOnlyBody with title := some "a" }
      = (.task 200
          (populateBoth sampleEnv
            { sampleTask with status := "in-progress", updatedAt := 1000 })
          (some "Task updated successfully"),
         [{ sampleTask with status := "in-progress", updatedAt := 1000 }]) := by
  decide

/-! ## The virtual `daysUntilDue` -/

/-- The ceiling of a number of milliseconds over a day: 1 for a positive
number up to a day, and at most 0 exactly for a number that is not
positive. -/
theorem ceilDiv_day (a : Int) :
    (0 < a → a ≤ 86400000 → ceilDiv a 86400000 = 1) ∧
      (ceilDiv a 86400000 ≤ 0 ↔ a ≤ 0) := by
  have hdiv : ceilDiv a 86400000 = -((-a) / 86400000) := by
    unfold ceilDiv
    rw [Int.fdiv_eq_ediv _ (by decide)]
  rw [hdiv]
  constructor
  · intro h1 h2
    omega
  · constructor <;> intro h <;> omega

/-- C24: `daysUntilDue` is `null` exactly when the due date is unset;
otherwise it is the ceiling of `(dueDate - now) / 86400000`, which is 1 for
every due date after now and at most 24 hours later, and is at most 0 exactly
when the due date is not after now. -/
theorem daysUntilDue_value (now : Timestamp) (t : Task) :
    (daysUntilDue now t = none ↔ t.dueDate = .missing ∨ t.dueDate = .null) ∧
    (∀ d, t.dueDate = .value d →
      daysUntilDue now t = some ⌈((d - now : Int) : ℚ) / ((86400000 : Int) : ℚ)⌉ ∧
      (now < d → d ≤ now + 86400000 → daysUntilDue now t = some 1) ∧
      ((∃ k, daysUntilDue now t = some k ∧ k ≤ 0) ↔ d ≤ now)) := by
  refine ⟨?_, ?_⟩
  · unfold daysUntilDue
    cases t.dueDate <;> simp
  · intro d hd
    have hval : daysUntilDue now t = some (ceilDiv (d - now) 86400000) := by
      unfold daysUntilDue
      rw [hd]
    refine ⟨?_, ?_, ?_⟩
    · rw [hval, ceilDiv_eq_ceil _ _ (by decide)]
    · intro h1 h2
      rw [hval, (ceilDiv_day (d - now)).1 (sub_pos.mpr h1) (sub_le_iff_le_add'.mpr h2)]
    · rw [hval]
      constructor
      · rintro ⟨k, hk, hle⟩
        injection hk with hk
        rw [← hk] at hle
        exact sub_nonpos.mp ((ceilDiv_day (d - now)).2.mp hle)
      · intro hle
        exact ⟨_, rfl, (ceilDiv_day (d - now)).2.mpr (sub_nonpos.mpr hle)⟩

/-- The virtual of C24 with the clock at 1000: a task due a full day later and
a task due one millisecond later have 1 day left, a task due now has 0 (the
existential of the claim holds of it), and a task without due date gives
`null`. -/
theorem daysUntilDue_value_witness :
    daysUntilDue 1000 { sampleTask with dueDate := .value 86401000 } = some 1 ∧
    daysUntilDue 1000 { sampleTask with dueDate := .value 1001 } = some 1 ∧
    (∃ k, daysUntilDue 1000 { sampleTask with dueDate := .value 1000 } = some k ∧ k ≤ 0) ∧
    daysUntilDue 1000 sampleTask = none :=
  ⟨((daysUntilDue_value 1000 { sampleTask with dueDate := .value 86401000 }).2
      86401000 rfl).2.1 (by decide) (by decide),
   ((daysUntilDue_value 1000 { sampleTask with dueDate := .value 1001 }).2
      1001 rfl).2.1 (by decide) (by decide),
   ((daysUntilDue_value 1000 { sampleTask with dueDate := .value 1000 }).2
      1000 rfl).2.2.mpr (by decide),
   (daysUntilDue_value 1000 sampleTask).1.mpr (Or.inl rfl)⟩

/-! ## Pages partition the listing -/

/-- For a page `p ≥ 1` and a limit `L ≥ 1` the fetched documents are the slice
of page `p` of the sorted matching documents. -/
theorem fetchPage_eq_pageSlice (store : Store) (q : ListQuery) (matching : Task → Bool)
    (p L : Nat) (hp : 1 ≤ p) (hL : 1 ≤ L) :
    fetchPage store q matching (p : Int) (L : Int)
      = pageSlice (sortedMatching store q matching) L p := by
  have hskip : ((p : Int) - 1) * (L : Int) = (((p - 1) * L : Nat) : Int) := by
    rw [Nat.cast_mul, Nat.cast_sub hp, Nat.cast_one]
  have hL0 : (L : Int) ≠ 0 := by omega
  unfold fetchPage applyLimit pageSlice sortedMatching
  rw [if_neg hL0, hskip, Int.toNat_ofNat, Int.natAbs_ofNat]

/-- The first `K` pages of a list, one after the other, are its first `K * L`
elements. -/
theorem flatMap_pageSlice (l : List Task) (L K : Nat) :
    (List.range K).flatMap (fun i => pageSlice l L (i + 1)) = l.take (K * L) := by
  induction K with
  | zero => simp
  | succ K ih =>
    rw [List.range_succ, List.flatMap_append, ih, List.flatMap_singleton, Nat.succ_mul,
      List.take_add]
    rfl

/-- The number of pages `⌈N / L⌉` times the page size covers `N`. -/
theorem le_ceilDiv_mul (N L : Nat) (hL : 1 ≤ L) :
    N ≤ (ceilDiv (N : Int) (L : Int)).toNat * L := by
  have hdiv : ceilDiv (N : Int) (L : Int) = -((-(N : Int)) / (L : Int)) := by
    unfold ceilDiv
    rw [Int.fdiv_eq_ediv _ (Int.ofNat_nonneg L)]
  have hL0 : (L : Int) ≠ 0 := by omega
  have hLpos : (0 : Int) < (L : Int) := by omega
  have hmul : (-(N : Int)) / (L : Int) * (L : Int) ≤ -(N : Int) := Int.ediv_mul_le _ hL0
  have hcover : (N : Int) ≤ ceilDiv (N : Int) (L : Int) * (L : Int) := by
    rw [hdiv]
    linarith
  have hnonneg : 0 ≤ ceilDiv (N : Int) (L : Int) := by
    by_contra hneg
    have hlt : ceilDiv (N : Int) (L : Int) < 0 := lt_of_not_ge hneg
    have : ceilDiv (N : Int) (L : Int) * (L : Int) < 0 := mul_neg_of_neg_of_pos hlt hLpos
    have hN : (0 : Int) ≤ (N : Int) := Int.ofNat_nonneg N
    linarith
  have hcast : ((ceilDiv (N : Int) (L : Int)).toNat : Int) = ceilDiv (N : Int) (L : Int) :=
    Int.toNat_of_nonneg hnonneg
  have : (N : Int) ≤ (((ceilDiv (N : Int) (L : Int)).toNat * L : Nat) : Int) := by
    rw [Nat.cast_mul, hcast]
    exact hcover
  exact_mod_cast this

/-- C25: for a store, a listing query whose filter compiles and whose limit is
`L ≥ 1`, let `sorted` be the matching tasks in the order of the sort and
`K = ⌈N / L⌉` the number of pages.  The request for page `p ≥ 1` returns the
`p`-th slice of `sorted`; the slices of the pages 1 to `K`, one after the
other, are `sorted` itself, so each matching task is on the pages as often as
it is among the matching tasks (once, ids being unique); and every page beyond
`K` is empty.  (The sort of the model is deterministic, ties keeping the
store order, so the total order of the claim is not needed.) -/
theorem pages_partition (env : Env) (store : Store) (uid : ObjectId) (q : ListQuery)
    (L : Nat) (matching : Task → Bool) (hl : limitParam q = some (L : Int)) (hL : 1 ≤ L)
    (hm : compileFilter env (buildFilter env uid q) = .ok matching) :
    (∀ (p : Nat) (ps : String), 1 ≤ p → parseInt ps = some (p : Int) →
      ∃ pg, getTasks env store uid { q with page := some ps }
        = .list ((pageSlice (sortedMatching store q matching) L p).map (populateAssignee env))
            pg ∧
        pg.total = some (ceilDiv ((sortedMatching store q matching).length : Int) (L : Int))) ∧
    (List.range (ceilDiv ((sortedMatching store q matching).length : Int) (L : Int)).toNat).flatMap
        (fun i => pageSlice (sortedMatching store q matching) L (i + 1))
      = sortedMatching store q matching ∧
    (∀ t, ((List.range
        (ceilDiv ((sortedMatching store q matching).length : Int) (L : Int)).toNat).flatMap
          (fun i => pageSlice (sortedMatching store q matching) L (i + 1))).count t
        = (store.filter matching).count t) ∧
    (∀ p, (ceilDiv ((sortedMatching store q matching).length : Int) (L : Int)).toNat < p →
      pageSlice (sortedMatching store q matching) L p = []) := by
  have hcover := le_ceilDiv_mul (sortedMatching store q matching).length L hL
  have hconcat : (List.range
      (ceilDiv ((sortedMatching store q matching).length : Int) (L : Int)).toNat).flatMap
        (fun i => pageSlice (sortedMatching store q matching) L (i + 1))
      = sortedMatching store q matching := by
    rw [flatMap_pageSlice, List.take_of_length_le hcover]
  have hperm : (sortedMatching store q matching).Perm (store.filter matching) := by
    unfold sortedMatching sortTasks
    split <;> exact List.perm_insertionSort _ _
  refine ⟨?_, hconcat, ?_, ?_⟩
  · intro p ps hp hps
    have hpage : pageParam { q with page := some ps } = some (p : Int) := by
      unfold pageParam
      exact hps
    have hlim : limitParam { q with page := some ps } = some (L : Int) := hl
    have hskip : 0 ≤ ((p : Int) - 1) * (L : Int) := by
      have h1 : (0 : Int) ≤ (p : Int) - 1 := by omega
      exact mul_nonneg h1 (Int.ofNat_nonneg L)
    have hfilter : compileFilter env (buildFilter env uid { q with page := some ps })
        = .ok matching := hm
    have hrun := @getTasks_of_params env store uid _ _ _ _ hpage hlim hskip hfilter
    have hfetch : fetchPage store { q with page := some ps } matching (p : Int) (L : Int)
        = pageSlice (sortedMatching store q matching) L p :=
      fetchPage_eq_pageSlice store { q with page := some ps } matching p L hp hL
    rw [hfetch] at hrun
    have hL0 : (L : Int) ≠ 0 := by omega
    refine ⟨_, hrun, ?_⟩
    simp only [if_neg hL0]
    have hlen : (store.filter matching).length = (sortedMatching store q matching).length :=
      hperm.length_eq.symm
    rw [hlen]
  · intro t
    rw [hconcat]
    exact hperm.count_eq t
  · intro p hp
    unfold pageSlice
    rw [List.drop_eq_nil_of_le, List.take_nil]
    calc (sortedMatching store q matching).length
        ≤ (ceilDiv ((sortedMatching store q matching).length : Int) (L : Int)).toNat * L :=
          hcover
      _ ≤ (p - 1) * L := Nat.mul_le_mul_right L (by omega)

/-- The pages of C25 for `limit=10` over fifteen tasks: there are 2 pages,
page 2 is the second slice, the two slices together are the sorted list, and
page 3 is empty. -/
theorem pages_partition_witness :
    ∃ matching, compileFilter sampleEnv (buildFilter sampleEnv 1 limitTenQuery) = .ok matching ∧
      (∃ pg, getTasks sampleEnv fifteenStore 1 { limitTenQuery with page := some "2" }
          = .list ((pageSlice (sortedMatching fifteenStore limitTenQuery matching) 10 2).map
              (populateAssignee sampleEnv)) pg ∧
        pg.total = some 2) ∧
      (List.range 2).flatMap
          (fun i => pageSlice (sortedMatching fifteenStore limitTenQuery matching) 10 (i + 1))
        = sortedMatching fifteenStore limitTenQuery matching ∧
      pageSlice (sortedMatching fifteenStore limitTenQuery matching) 10 3 = [] ∧
      (sortedMatching fifteenStore limitTenQuery matching).map Task.id
        = [114, 113, 112, 111, 110, 109, 108, 107, 106, 105, 104, 103, 102, 101, 100] :=
  ⟨_, rfl,
   (pages_partition sampleEnv fifteenStore 1 limitTenQuery 10 _ (by decide) (by decide)
      rfl).1 2 "2" (by decide) (by decide),
   (pages_partition sampleEnv fifteenStore 1 limitTenQuery 10 _ (by decide) (by decide)
      rfl).2.1,
   (pages_partition sampleEnv fifteenStore 1 limitTenQuery 10 _ (by decide) (by decide)
      rfl).2.2.2 3 (by decide),
   by decide⟩

/-! ## Relations between the counts -/

theorem status_counts_add (l : List Task) (h : ∀ t ∈ l, t.status ∈ statusEnum) :
    l.countP (fun t => decide (t.status = "completed"))
      + l.countP (fun t => decide (t.status = "pending"))
      + l.countP (fun t => decide (t.status = "in-progress")) = l.length := by
  induction l with
  | nil => rfl
  | cons a as ih =>
    have ha : a.status ∈ statusEnum := h a (List.mem_cons_self a as)
    have ih2 := ih (fun t ht => h t (List.mem_cons_of_mem a ht))
    simp only [statusEnum, List.mem_cons, List.mem_singleton, List.not_mem_nil, or_false] at ha
    simp only [List.countP_cons, List.length_cons]
    rcases ha with ha | ha | ha <;> simp [ha] <;> omega

theorem overdue_le_open (now : Timestamp) (l : List Task)
    (h : ∀ t ∈ l, t.status ∈ statusEnum) :
    l.countP (overdueCond now)
      ≤ l.countP (fun t => decide (t.status = "pending"))
        + l.countP (fun t => decide (t.status = "in-progress")) := by
  induction l with
  | nil => simp
  | cons a as ih =>
    have ha : a.status ∈ statusEnum := h a (List.mem_cons_self a as)
    have ih2 := ih (fun t ht => h t (List.mem_cons_of_mem a ht))
    simp only [statusEnum, List.mem_cons, List.mem_singleton, List.not_mem_nil, or_false] at ha
    simp only [List.countP_cons]
    rcases ha with ha | ha | ha
    · simp only [ha]
      by_cases ho : overdueCond now a = true <;> simp [ho] <;> omega
    · by_cases ho : overdueCond now a = true <;> simp [ho, ha] <;> omega
    · have hno : overdueCond now a = false := by simp [overdueCond, ha]
      simp [hno, ha]
      omega

/-- C26: when every task in the caller's scope has one of the three enum
statuses, the payload of `getTaskStats` has
`completed + pending + inProgress == total` and
`overdue <= pending + inProgress`; so when the equality fails, some task in
scope has a status outside the enum. -/
theorem taskStats_relations (env : Env) (store : Store) (uid : ObjectId) :
    getTaskStats env store uid = .stats (taskStats env.now store uid) ∧
    ((∀ t ∈ store, t.createdBy = uid ∨ t.assignee = some uid → t.status ∈ statusEnum) →
      (taskStats env.now store uid).completed + (taskStats env.now store uid).pending
          + (taskStats env.now store uid).inProgress = (taskStats env.now store uid).total ∧
      (taskStats env.now store uid).overdue
        ≤ (taskStats env.now store uid).pending + (taskStats env.now store uid).inProgress) ∧
    ((taskStats env.now store uid).completed + (taskStats env.now store uid).pending
        + (taskStats env.now store uid).inProgress ≠ (taskStats env.now store uid).total →
      ∃ t ∈ store, (t.createdBy = uid ∨ t.assignee = some uid) ∧ t.status ∉ statusEnum) := by
  obtain ⟨h1, h2, h3, h4, _, h6⟩ := taskStats_fields env.now store uid
  have hmain : (∀ t ∈ store, t.createdBy = uid ∨ t.assignee = some uid →
      t.status ∈ statusEnum) →
      (taskStats env.now store uid).completed + (taskStats env.now store uid).pending
          + (taskStats env.now store uid).inProgress = (taskStats env.now store uid).total ∧
      (taskStats env.now store uid).overdue
        ≤ (taskStats env.now store uid).pending
          + (taskStats env.now store uid).inProgress := by
    intro henum
    have hscope : ∀ t ∈ store.filter (readScope uid), t.status ∈ statusEnum := by
      intro t ht
      obtain ⟨hmem, hin⟩ := List.mem_filter.mp ht
      exact henum t hmem ((readScope_eq_true_iff uid t).mp hin)
    rw [h1, h2, h3, h4, h6]
    exact ⟨status_counts_add _ hscope, overdue_le_open env.now _ hscope⟩
  refine ⟨rfl, hmain, ?_⟩
  intro hne
  by_contra hall
  apply hne
  refine (hmain ?_).1
  intro t ht hin
  by_contra hout
  exact hall ⟨t, ht, hin, hout⟩

/-- The statistics of C26: over the four tasks of the route test the three
status counts add up to the total, 1 + 2 + 1 = 4, and the overdue count is
within the open tasks; after a bulk update stored the status `archived` on
task 10, the counts (0 + 0 + 0) miss the total 1, and the task with the
foreign status is found. -/
theorem taskStats_relations_witness :
    ((taskStats statsNow statsStore 1).completed + (taskStats statsNow statsStore 1).pending
        + (taskStats statsNow statsStore 1).inProgress = (taskStats statsNow statsStore 1).total ∧
      (taskStats statsNow statsStore 1).overdue
        ≤ (taskStats statsNow statsStore 1).pending
          + (taskStats statsNow statsStore 1).inProgress) ∧
    (taskStats statsNow statsStore 1).total = 4 ∧
    (bulkUpdateTasks sampleEnv [sampleTask] 1 (.array [10]) archiveUpdates).2
      = [{ sampleTask with status := "archived", updatedAt := 1000 }] ∧
    (∃ t ∈ [{ sampleTask with status := "archived", updatedAt := 1000 }],
      (t.createdBy = 1 ∨ t.assignee = some 1) ∧ t.status ∉ statusEnum) :=
  ⟨(taskStats_relations { sampleEnv with now := statsNow } statsStore 1).2.1 (by decide),
   by decide, by decide,
   (taskStats_relations sampleEnv [{ sampleTask with status := "archived", updatedAt := 1000 }]
      1).2.2 (by decide)⟩

end TaskTracker
